import Mathlib

/-!
Verification of the truelink deep-link resolution engine
(`backend/server.js`) against its natural-language specification.

The development shallowly embeds the relevant JavaScript functions:
`isValidUrl`, `detectApp`, `parseMailto`, `parseGmailWeb`,
`buildChromeScheme`, `buildDeepLink`, and the inline client-side
redirect sequencer served by the `/r/:id` route.  The WHATWG `URL`
constructor, `URLSearchParams`, `encodeURIComponent` and
`decodeURIComponent` builtins that the source relies on are modelled by
executable Lean functions covering the behaviour exercised by the
server's inputs (http/https/mailto URL strings).
-/

namespace TrueLink

/-! ### Generic character / list utilities -/

/-- `spanUntil stop l` splits `l` at the first element satisfying `stop`:
the first component is the longest prefix on which `stop` is false, the
second is the rest (beginning with a `stop` element, if any). -/
def spanUntil (stop : Char → Bool) : List Char → List Char × List Char
  | [] => ([], [])
  | c :: l =>
    if stop c then ([], c :: l)
    else
      let p := spanUntil stop l
      (c :: p.1, p.2)

theorem spanUntil_sound (stop : Char → Bool) (l : List Char) :
    ∀ (a b : List Char), spanUntil stop l = (a, b) →
      l = a ++ b ∧ (∀ c ∈ a, stop c = false) ∧
        (b = [] ∨ ∃ d t, b = d :: t ∧ stop d = true) := by
  induction l with
  | nil =>
    intro a b h
    obtain ⟨h1, h2⟩ := Prod.mk.injEq .. ▸ h
    simp [spanUntil] at h
    obtain ⟨h1, h2⟩ := h
    subst h1; subst h2; simp
  | cons c l ih =>
    intro a b h
    by_cases hc : stop c = true
    · rw [spanUntil, if_pos hc] at h
      obtain ⟨h1, h2⟩ := Prod.mk.injEq .. ▸ h
      subst h1; subst h2
      exact ⟨rfl, by simp, Or.inr ⟨c, l, rfl, hc⟩⟩
    · rw [spanUntil, if_neg hc] at h
      obtain ⟨h1, h2⟩ := Prod.mk.injEq .. ▸ h
      subst h1; subst h2
      obtain ⟨hl, hclean, hrest⟩ :=
        ih (spanUntil stop l).1 (spanUntil stop l).2 rfl
      refine ⟨by simpa using hl, ?_, hrest⟩
      intro x hx
      rcases List.mem_cons.mp hx with hx | hx
      · simpa [hx] using eq_false_of_ne_true hc
      · exact hclean x hx

/-- Prefix of `spanUntil` when the list starts with a clean prefix and
then hits a stopping element. -/
theorem spanUntil_append_stop (stop : Char → Bool) (l1 : List Char) (d : Char) (l2 : List Char)
    (h1 : ∀ c ∈ l1, stop c = false) (hd : stop d = true) :
    spanUntil stop (l1 ++ d :: l2) = (l1, d :: l2) := by
  induction l1 with
  | nil => simp [spanUntil, hd]
  | cons c t ih =>
    have hc : stop c = false := h1 c (by simp)
    simp [spanUntil, hc, ih fun x hx => h1 x (by simp [hx])]

/-- `spanUntil` over a list with no stopping element returns the whole list. -/
theorem spanUntil_all (stop : Char → Bool) (l : List Char)
    (h : ∀ c ∈ l, stop c = false) : spanUntil stop l = (l, []) := by
  induction l with
  | nil => simp [spanUntil]
  | cons c t ih =>
    have hc : stop c = false := h c (by simp)
    simp [spanUntil, hc, ih fun x hx => h x (by simp [hx])]

/-! ### Substring tests (JS `String.prototype.includes` / `endsWith`) -/

/-- Executable test: does `pat` occur as a contiguous substring of `l`? -/
def infixOfB (pat : List Char) : List Char → Bool
  | [] => pat.isEmpty
  | c :: rest => pat.isPrefixOf (c :: rest) || infixOfB pat rest

/-- `strContains s pat` models JS `s.includes(pat)`. -/
def strContains (s pat : String) : Bool := infixOfB pat.data s.data

/-- `strEndsWith s suf` models JS `s.endsWith(suf)`. -/
def strEndsWith (s suf : String) : Bool := List.isSuffixOf suf.data s.data

/-- `s.startsWith(pre)`, character-list based. -/
def strStartsWith (s pre : String) : Bool := pre.data.isPrefixOf s.data

/-- `s.slice(n)` / `String.drop`, character-list based. -/
def strDrop (s : String) (n : Nat) : String := String.mk (s.data.drop n)

/-- `s.trim()`, character-list based (ASCII whitespace). -/
def strTrim (s : String) : String :=
  String.mk ((((s.data.dropWhile Char.isWhitespace).reverse).dropWhile
    Char.isWhitespace).reverse)

/-- `s.split(c)`, character-list based: JS-style split keeping empty
segments. -/
def splitChar (c0 : Char) : List Char → List (List Char)
  | [] => [[]]
  | c :: rest =>
    let r := splitChar c0 rest
    if c == c0 then [] :: r
    else
      match r with
      | [] => [[c]]
      | seg :: segs => (c :: seg) :: segs

theorem infixOfB_of_infix {pat l : List Char} (h : pat <:+: l) :
    infixOfB pat l = true := by
  induction l with
  | nil =>
    rcases h with ⟨s, t, hst⟩
    simp at hst
    simp [infixOfB, hst.2.1]
  | cons c rest ih =>
    rcases h with ⟨s, t, hst⟩
    cases s with
    | nil =>
      have hpre : pat <+: c :: rest := ⟨t, by simpa using hst⟩
      simp [infixOfB, List.isPrefixOf_iff_prefix, hpre]
    | cons x xs =>
      have hx : pat <:+: rest := ⟨xs, t, by
        have h2 := hst
        simp at h2
        rw [← List.append_assoc] at h2
        exact h2.2⟩
      simp [infixOfB, ih hx]

theorem strContains_mid (P M Q : String) : strContains ((P ++ M) ++ Q) M = true := by
  apply infixOfB_of_infix
  refine ⟨P.data, Q.data, ?_⟩
  simp

theorem strEndsWith_last (P Q : String) : strEndsWith (P ++ Q) Q = true := by
  have h : Q.data <:+ (P ++ Q).data := by
    simp [String.data_append]
  simpa [strEndsWith, List.isSuffixOf_iff_suffix] using h

/-! ### UTF-8 and percent encoding/decoding models -/

/-- UTF-8 bytes of a character (standard encoding of its code point). -/
def charUtf8 (c : Char) : List Nat :=
  let n := c.toNat
  if n < 0x80 then [n]
  else if n < 0x800 then [0xC0 + n / 0x40, 0x80 + n % 0x40]
  else if n < 0x10000 then
    [0xE0 + n / 0x1000, 0x80 + (n / 0x40) % 0x40, 0x80 + n % 0x40]
  else
    [0xF0 + n / 0x40000, 0x80 + (n / 0x1000) % 0x40, 0x80 + (n / 0x40) % 0x40,
      0x80 + n % 0x40]

/-- Upper-case hex digit for a value below 16 (as used by JS percent-encoding). -/
def hexDigit (n : Nat) : Char :=
  if n < 10 then Char.ofNat (48 + n) else Char.ofNat (55 + n)

/-- `%XX` escape of one byte. -/
def percentByte (b : Nat) : List Char := ['%', hexDigit (b / 16), hexDigit (b % 16)]

/-- Value of a hex digit character, `none` if not a hex digit. -/
def hexVal (c : Char) : Option Nat :=
  if 48 ≤ c.toNat ∧ c.toNat ≤ 57 then some (c.toNat - 48)
  else if 65 ≤ c.toNat ∧ c.toNat ≤ 70 then some (c.toNat - 55)
  else if 97 ≤ c.toNat ∧ c.toNat ≤ 102 then some (c.toNat - 87)
  else none

/-- Characters `encodeURIComponent` leaves unescaped:
`A-Z a-z 0-9 - _ . ! ~ * ' ( )`. -/
def uriUnreserved (c : Char) : Bool :=
  c.isAlphanum || c == '-' || c == '_' || c == '.' || c == '!' || c == '~' ||
    c == '*' || c.toNat == 39 || c == '(' || c == ')'

/-- Model of JS `encodeURIComponent`. -/
def encodeURIComponent (s : String) : String :=
  String.mk (s.data.foldr
    (fun c acc =>
      (if uriUnreserved c then [c]
       else (charUtf8 c).foldr (fun b acc2 => percentByte b ++ acc2) []) ++ acc)
    [])

/-- Characters the `application/x-www-form-urlencoded` serializer leaves
unescaped: `A-Z a-z 0-9 * - . _` (space becomes `+`). -/
def formSafe (c : Char) : Bool :=
  c.isAlphanum || c == '*' || c == '-' || c == '.' || c == '_'

/-- Model of the WHATWG `application/x-www-form-urlencoded` serializer used
by `URLSearchParams.toString()`. -/
def formEncode (s : String) : String :=
  String.mk (s.data.foldr
    (fun c acc =>
      (if formSafe c then [c]
       else if c == ' ' then ['+']
       else (charUtf8 c).foldr (fun b acc2 => percentByte b ++ acc2) []) ++ acc)
    [])

/-- Serialization of a list of name/value pairs, as
`URLSearchParams.toString()` renders params appended in order. -/
def serializePairs : List (String × String) → String
  | [] => ""
  | [p] => formEncode p.1 ++ "=" ++ formEncode p.2
  | p :: q :: rest =>
    formEncode p.1 ++ "=" ++ formEncode p.2 ++ "&" ++ serializePairs (q :: rest)

/-- UTF-8 continuation byte test. -/
def isCont (b : Nat) : Bool := 0x80 ≤ b && b ≤ 0xBF

/-- Lenient UTF-8 decoding of a byte list: malformed sequences decode to
U+FFFD, as in the WHATWG decoder backing `URLSearchParams`.  The fuel
argument (instantiated with the list length, which bounds the recursion
depth) keeps the recursion structural. -/
def utf8DecodeLenientF : Nat → List Nat → List Char
  | 0, _ => []
  | _ + 1, [] => []
  | fuel + 1, b :: rest =>
    if b < 0x80 then Char.ofNat b :: utf8DecodeLenientF fuel rest
    else if 0xC2 ≤ b ∧ b ≤ 0xDF then
      match rest with
      | c1 :: rest2 =>
        if isCont c1 then
          Char.ofNat ((b - 0xC0) * 0x40 + (c1 - 0x80)) :: utf8DecodeLenientF fuel rest2
        else '�' :: utf8DecodeLenientF fuel (c1 :: rest2)
      | [] => ['�']
    else if 0xE0 ≤ b ∧ b ≤ 0xEF then
      match rest with
      | c1 :: c2 :: rest2 =>
        if isCont c1 && isCont c2 &&
            (decide (0xE1 ≤ b) || decide (0xA0 ≤ c1)) &&
            (decide (b ≠ 0xED) || decide (c1 ≤ 0x9F)) then
          Char.ofNat ((b - 0xE0) * 0x1000 + (c1 - 0x80) * 0x40 + (c2 - 0x80)) ::
            utf8DecodeLenientF fuel rest2
        else '�' :: utf8DecodeLenientF fuel (c1 :: c2 :: rest2)
      | _ => ['�']
    else if 0xF0 ≤ b ∧ b ≤ 0xF4 then
      match rest with
      | c1 :: c2 :: c3 :: rest2 =>
        if isCont c1 && isCont c2 && isCont c3 &&
            (decide (0xF1 ≤ b) || decide (0x90 ≤ c1)) &&
            (decide (b ≠ 0xF4) || decide (c1 ≤ 0x8F)) then
          Char.ofNat ((b - 0xF0) * 0x40000 + (c1 - 0x80) * 0x1000 +
              (c2 - 0x80) * 0x40 + (c3 - 0x80)) ::
            utf8DecodeLenientF fuel rest2
        else '�' :: utf8DecodeLenientF fuel (c1 :: c2 :: c3 :: rest2)
      | _ => ['�']
    else '�' :: utf8DecodeLenientF fuel rest

/-- Lenient UTF-8 decoding with sufficient fuel. -/
def utf8DecodeLenient (l : List Nat) : List Char := utf8DecodeLenientF l.length l

/-- Lenient percent-decoding to bytes: a `%` not followed by two hex digits
is passed through literally (WHATWG behaviour). -/
def percentDecodeLenient : List Char → List Nat
  | [] => []
  | '%' :: a :: b :: rest =>
    match hexVal a, hexVal b with
    | some x, some y => (16 * x + y) :: percentDecodeLenient rest
    | _, _ => charUtf8 '%' ++ percentDecodeLenient (a :: b :: rest)
  | c :: rest => charUtf8 c ++ percentDecodeLenient rest

/-- WHATWG form decoding: `+` to space, then lenient percent-decoding and
lenient UTF-8 decoding (used by `URLSearchParams` when reading values). -/
def formDecode (s : String) : String :=
  String.mk (utf8DecodeLenient (percentDecodeLenient
    (s.data.map fun c => if c == '+' then ' ' else c)))

/-! ### Strict decoding: JS `decodeURIComponent` (throws on malformed input,
modelled as `none`) -/

inductive PctTok where
  | lit (c : Char)
  | byte (b : Nat)
deriving Repr, DecidableEq

/-- Strict tokenizer: each `%` must be followed by exactly two hex digits. -/
def pctTokenize : List Char → Option (List PctTok)
  | [] => some []
  | '%' :: a :: b :: rest =>
    match hexVal a, hexVal b with
    | some x, some y => (PctTok.byte (16 * x + y) :: ·) <$> pctTokenize rest
    | _, _ => none
  | '%' :: _ => none
  | c :: rest => (PctTok.lit c :: ·) <$> pctTokenize rest

/-- Strict UTF-8 decoding of a byte list (rejects malformed sequences,
overlong forms and surrogates, per the ECMA `Decode` algorithm). -/
def utf8DecodeStrict : List Nat → Option (List Char)
  | [] => some []
  | b :: rest =>
    if b < 0x80 then (Char.ofNat b :: ·) <$> utf8DecodeStrict rest
    else if 0xC2 ≤ b ∧ b ≤ 0xDF then
      match rest with
      | c1 :: rest2 =>
        if isCont c1 then
          (Char.ofNat ((b - 0xC0) * 0x40 + (c1 - 0x80)) :: ·) <$> utf8DecodeStrict rest2
        else none
      | [] => none
    else if 0xE0 ≤ b ∧ b ≤ 0xEF then
      match rest with
      | c1 :: c2 :: rest2 =>
        if isCont c1 && isCont c2 &&
            (decide (0xE1 ≤ b) || decide (0xA0 ≤ c1)) &&
            (decide (b ≠ 0xED) || decide (c1 ≤ 0x9F)) then
          (Char.ofNat ((b - 0xE0) * 0x1000 + (c1 - 0x80) * 0x40 + (c2 - 0x80)) :: ·) <$>
            utf8DecodeStrict rest2
        else none
      | _ => none
    else if 0xF0 ≤ b ∧ b ≤ 0xF4 then
      match rest with
      | c1 :: c2 :: c3 :: rest2 =>
        if isCont c1 && isCont c2 && isCont c3 &&
            (decide (0xF1 ≤ b) || decide (0x90 ≤ c1)) &&
            (decide (b ≠ 0xF4) || decide (c1 ≤ 0x8F)) then
          (Char.ofNat ((b - 0xF0) * 0x40000 + (c1 - 0x80) * 0x1000 +
              (c2 - 0x80) * 0x40 + (c3 - 0x80)) :: ·) <$>
            utf8DecodeStrict rest2
        else none
      | _ => none
    else none

/-- Split a token list into its leading run of percent-escaped bytes and
the remaining tokens. -/
def splitBytes : List PctTok → List Nat × List PctTok
  | [] => ([], [])
  | PctTok.byte b :: rest =>
    let p := splitBytes rest
    (b :: p.1, p.2)
  | PctTok.lit c :: rest => ([], PctTok.lit c :: rest)

theorem splitBytes_length (l : List PctTok) : (splitBytes l).2.length ≤ l.length := by
  induction l with
  | nil => simp [splitBytes]
  | cons t rest ih =>
    cases t with
    | byte b => simpa [splitBytes] using Nat.le_succ_of_le ih
    | lit c => simp [splitBytes]

/-- Decode a token list: literal characters pass through, maximal runs of
percent-escaped bytes must form valid UTF-8.  Fuel (the list length)
keeps the recursion structural. -/
def decodeTokensF : Nat → List PctTok → Option (List Char)
  | 0, _ => some []
  | _ + 1, [] => some []
  | fuel + 1, PctTok.lit c :: rest => (c :: ·) <$> decodeTokensF fuel rest
  | fuel + 1, PctTok.byte b :: rest =>
    let p := splitBytes rest
    match utf8DecodeStrict (b :: p.1) with
    | none => none
    | some cs => (cs ++ ·) <$> decodeTokensF fuel p.2

/-- Token-list decoding with sufficient fuel. -/
def decodeTokens (l : List PctTok) : Option (List Char) := decodeTokensF l.length l

/-- Model of JS `decodeURIComponent`; `none` models a thrown `URIError`. -/
def decodeURIComponent (s : String) : Option String :=
  match pctTokenize s.data with
  | none => none
  | some toks =>
    match decodeTokens toks with
    | none => none
    | some cs => some (String.mk cs)

/-! ### The WHATWG `URL` model -/

/-- Parsed URL value, modelling the components of a JS `URL` object that
the server reads: `protocol` (with trailing `:`), `hostname` (lower-cased,
without port), `port` (empty when absent or default), `pathname`, `search`
(empty or starting with `?`), `hash` (empty or starting with `#`).
`slashes` records whether the URL has an authority component. -/
structure URL where
  protocol : String
  slashes : Bool
  hostname : String
  port : String
  pathname : String
  search : String
  hash : String
deriving Repr, DecidableEq

/-- Scheme characters after the first (must start with a letter). -/
def isSchemeChar (c : Char) : Bool :=
  c.isAlphanum || c == '+' || c == '-' || c == '.'

/-- Split off `scheme:` from a URL string; `none` when there is no valid
scheme (the `URL` constructor throws for such strings without a base). -/
def splitScheme (l : List Char) : Option (List Char × List Char) :=
  match l with
  | [] => none
  | c :: _ =>
    if c.isAlpha then
      match spanUntil (fun d => !isSchemeChar d) l with
      | (pre, rest) =>
        match rest with
        | r0 :: rtail => if r0 == ':' then some (pre, rtail) else none
        | [] => none
    else none

def isSlashChar (c : Char) : Bool := c == '/' || c == '\\'

/-- Characters terminating the authority component of a special URL. -/
def isAuthDelim (c : Char) : Bool := c == '/' || c == '\\' || c == '?' || c == '#'

/-- Characters terminating the path component. -/
def isPathDelim (c : Char) : Bool := c == '?' || c == '#'

/-- Forbidden host code points (WHATWG): their presence makes the `URL`
constructor throw for special schemes. -/
def badHostChar (c : Char) : Bool :=
  c == '\x00' || c == '\t' || c == '\n' || c == '\r' || c == ' ' || c == '#' ||
    c == '%' || c == '/' || c == ':' || c == '<' || c == '>' || c == '?' ||
    c == '@' || c == '[' || c == '\\' || c == ']' || c == '^' || c == '|'

/-- The part of an authority after its last `@` (userinfo is dropped). -/
def afterLastAt (l : List Char) : List Char :=
  (l.reverse.takeWhile fun c => !(c == '@')).reverse

/-- Validate and lower-case a host, pairing it with its port. -/
def checkHost (h : List Char) (port : String) : Option (String × String) :=
  let hl := h.map Char.toLower
  if hl.isEmpty then none
  else if hl.any badHostChar then none
  else some (String.mk hl, port)

/-- Parse `host[:port]` out of an authority (after dropping userinfo);
ports must be all digits. -/
def parseHostPort (auth : List Char) : Option (String × String) :=
  let hostport := afterLastAt auth
  match spanUntil (fun c => c == ':') hostport with
  | (h, []) => checkHost h ""
  | (h, _ :: p) => if p.all Char.isDigit then checkHost h (String.mk p) else none

/-- A default port is normalized away (`http:80`, `https:443`). -/
def defaultPort (scheme : String) (port : String) : String :=
  if (scheme == "http" && port == "80") || (scheme == "https" && port == "443") then ""
  else port

def hashPart (l : List Char) : String :=
  match l with
  | [] => ""
  | c :: r => if c == '#' then (if r.isEmpty then "" else String.mk ('#' :: r)) else ""

/-- Split the trailing `?query#fragment` part into `search` and `hash`. -/
def parseSearchHash (l : List Char) : String × String :=
  match l with
  | [] => ("", "")
  | c :: r =>
    if c == '?' then
      match spanUntil (fun c2 => c2 == '#') r with
      | (q, h) => (if q.isEmpty then "" else String.mk ('?' :: q), hashPart h)
    else ("", hashPart (c :: r))

/-- Schemes the WHATWG parser treats as special (authority-bearing). -/
def specialSchemes : List String := ["http", "https", "ws", "wss", "ftp", "file"]

/-- Authority form of a non-special URL (e.g. `mailto://a@b`);
hosts are opaque: kept case-sensitively, `%` allowed. -/
def parseNonSpecialAuth (scheme : String) (r2 : List Char) : Option URL :=
  match spanUntil (fun c => c == '/' || c == '?' || c == '#') r2 with
  | (auth, after) =>
    let hostport := afterLastAt auth
    match spanUntil (fun c => c == ':') hostport with
    | (h, hp) =>
      let portRes : Option String :=
        match hp with
        | [] => some ""
        | _ :: p => if p.all Char.isDigit then some (String.mk p) else none
      match portRes with
      | none => none
      | some port =>
        if h.any (fun c => badHostChar c && !(c == '%')) then none
        else
          match spanUntil isPathDelim after with
          | (pth, after2) =>
            let sh := parseSearchHash after2
            some { protocol := scheme ++ ":", slashes := true,
                   hostname := String.mk h, port := port,
                   pathname := String.mk pth, search := sh.1, hash := sh.2 }

/-- Opaque-path form of a non-special URL (e.g. `mailto:user@host`). -/
def parseOpaquePath (scheme : String) (rest : List Char) : URL :=
  match spanUntil isPathDelim rest with
  | (pth, after2) =>
    let sh := parseSearchHash after2
    { protocol := scheme ++ ":", slashes := false, hostname := "",
      port := "", pathname := String.mk pth, search := sh.1, hash := sh.2 }

/-- Parse everything after `scheme:`. -/
def parseAfterScheme (scheme : String) (rest : List Char) : Option URL :=
  if specialSchemes.contains scheme then
    let rest1 := rest.dropWhile isSlashChar
    match spanUntil isAuthDelim rest1 with
    | (auth, after) =>
      match parseHostPort auth with
      | none => none
      | some (host, port) =>
        match spanUntil isPathDelim after with
        | (pth, after2) =>
          let sh := parseSearchHash after2
          some { protocol := scheme ++ ":", slashes := true, hostname := host,
                 port := defaultPort scheme port,
                 pathname := if pth.isEmpty then "/" else String.mk pth,
                 search := sh.1, hash := sh.2 }
  else
    match rest with
    | a :: b :: r2 =>
      if a == '/' && b == '/' then parseNonSpecialAuth scheme r2
      else some (parseOpaquePath scheme rest)
    | _ => some (parseOpaquePath scheme rest)

/-- Model of the JS `new URL(s)` constructor (no base URL); `none` models a
thrown `TypeError`. -/
def parseURL (s : String) : Option URL :=
  match splitScheme s.data with
  | none => none
  | some (sc, rest) => parseAfterScheme (String.mk (sc.map Char.toLower)) rest

/-- Serialization (JS `URL.prototype.toString` / `href`) of the model. -/
def URL.toString (u : URL) : String :=
  u.protocol ++
    (if u.slashes then
      "//" ++ u.hostname ++ (if u.port == "" then "" else ":" ++ u.port)
     else "") ++
    u.pathname ++ u.search ++ u.hash

/-! ### `URLSearchParams` reading -/

/-- One `name=value` segment, split at the first `=`, both sides
form-decoded. -/
def pairOfSegment (seg : List Char) : String × String :=
  match spanUntil (fun c => c == '=') seg with
  | (k, []) => (formDecode (String.mk k), "")
  | (k, _ :: v) => (formDecode (String.mk k), formDecode (String.mk v))

/-- Parse a `search` string (with leading `?`, or empty) into its ordered
name/value pairs, as `URLSearchParams` does. -/
def parseQuery (search : String) : List (String × String) :=
  let qs := match search.data with
    | '?' :: r => r
    | r => r
  ((splitChar '&' qs).filter fun seg => !seg.isEmpty).map pairOfSegment

/-- Model of `url.searchParams.get(name)`: first value for `name`, `none`
for JS `null`. -/
def URL.searchParamsGet (u : URL) (name : String) : Option String :=
  ((parseQuery u.search).find? fun p => p.1 == name).map Prod.snd

/-! ### Embedding of `backend/server.js` -/

/-- JS truthiness of `a || b` for a string-or-null `a` (empty string is
falsy). -/
def jsOr (a : Option String) (b : String) : String :=
  match a with
  | some s => if s == "" then b else s
  | none => b

/-- JS truthiness of a string-or-null value. -/
def jsT (a : Option String) : Bool :=
  match a with
  | some s => !(s == "")
  | none => false

/-- `isValidUrl` (server.js line 27): `new URL` must succeed and the
protocol must be http/https/mailto. -/
def isValidUrl (s : String) : Bool :=
  match parseURL s with
  | some u => u.protocol == "http:" || u.protocol == "https:" || u.protocol == "mailto:"
  | none => false

/-- Fields extracted for Gmail (to/subject/body/cc/bcc). -/
structure MailFields where
  «to» : String
  subject : String
  body : String
  cc : String
  bcc : String
deriving Repr, DecidableEq

/-- `parseMailto` (server.js line 93).  It re-parses the URL string and
applies `decodeURIComponent` to the path; `none` models the `URIError`
that `decodeURIComponent` throws on malformed percent-encodings. -/
def parseMailto (urlStr : String) : Option MailFields :=
  match parseURL urlStr with
  | none => none
  | some u =>
    match decodeURIComponent u.pathname with
    | none => none
    | some dec =>
      some { «to» := strTrim dec
             subject := jsOr (u.searchParamsGet "subject") (jsOr (u.searchParamsGet "su") "")
             body := jsOr (u.searchParamsGet "body") ""
             cc := jsOr (u.searchParamsGet "cc") ""
             bcc := jsOr (u.searchParamsGet "bcc") "" }

/-- `parseGmailWeb` (server.js line 108). -/
def parseGmailWeb (u : URL) : MailFields :=
  { «to» := jsOr (u.searchParamsGet "to") ""
    subject := jsOr (u.searchParamsGet "su") ""
    body := jsOr (u.searchParamsGet "body") ""
    cc := jsOr (u.searchParamsGet "cc") ""
    bcc := jsOr (u.searchParamsGet "bcc") "" }

/-- `meta` object of a `detectApp` result: `u`, and for Gmail the `kind`
and parsed `fields` (absent JS properties are `none`). -/
structure Meta where
  u : Option URL := none
  kind : Option String := none
  fields : Option MailFields := none
deriving Repr, DecidableEq

/-- Result `{app, meta}` of `detectApp`; `app = none` models JS `null`. -/
structure DetectResult where
  app : Option String
  meta : Meta
deriving Repr, DecidableEq

/-- `host.replace(/^www\./, "")`. -/
def stripWww (h : String) : String :=
  if strStartsWith h "www." then strDrop h 4 else h

/-- The Gmail-web-compose condition of `detectApp` (server.js lines 65-69). -/
def gmailWebCond (u : URL) : Bool :=
  stripWww u.hostname == "mail.google.com" && strStartsWith u.pathname "/mail/" &&
    (u.searchParamsGet "view" == some "cm" || u.searchParamsGet "compose" == some "1" ||
      u.searchParamsGet "fs" == some "1")

/-- `detectApp` (server.js lines 53-91).  The surrounding `try`/`catch`
returns `{app: null, meta: {}}` when `new URL` or `parseMailto`
(via `decodeURIComponent`) throws. -/
def detectApp (urlStr : String) : DetectResult :=
  match parseURL urlStr with
  | none => ⟨none, {}⟩
  | some u =>
    if u.protocol == "mailto:" then
      match parseMailto urlStr with
      | some fields => ⟨some "gmail", { kind := some "mailto", fields := some fields }⟩
      | none => ⟨none, {}⟩
    else
      let host := stripWww u.hostname
      if gmailWebCond u then
        ⟨some "gmail", { u := some u, kind := some "web", fields := some (parseGmailWeb u) }⟩
      else if strContains host "youtube.com" || host == "youtu.be" then
        ⟨some "youtube", { u := some u }⟩
      else if host == "wa.me" || strContains host "whatsapp.com" then
        ⟨some "whatsapp", { u := some u }⟩
      else if host == "t.me" || strContains host "telegram.me" ||
          strContains host "telegram.org" then
        ⟨some "telegram", { u := some u }⟩
      else if strContains host "instagram.com" then
        ⟨some "instagram", { u := some u }⟩
      else if strStartsWith host "amazon." || strContains host "amazon." then
        ⟨some "amazon", { u := some u }⟩
      else if strContains host "twitter.com" || strContains host "x.com" then
        ⟨some "twitter", { u := some u }⟩
      else if strContains host "facebook.com" then
        ⟨some "facebook", { u := some u }⟩
      else ⟨none, { u := some u }⟩

/-- `buildChromeScheme` (server.js line 120):
`googlechrome://` + fallback with a leading `http://`/`https://` removed. -/
def buildChromeScheme (fallbackHttps : String) : String :=
  "googlechrome://" ++
    (if strStartsWith fallbackHttps "https://" then strDrop fallbackHttps 8
     else if strStartsWith fallbackHttps "http://" then strDrop fallbackHttps 7
     else fallbackHttps)

/-- The redirect descriptor returned by `buildDeepLink`. -/
structure Descriptor where
  ios : Option String
  androidIntent : String
  fallbackHttps : String
  chromeScheme : String
deriving Repr, DecidableEq

/-- `asHostPath` (server.js line 135): hostname + pathname + search + hash. -/
def asHostPath (u : URL) : String :=
  u.hostname ++ u.pathname ++ u.search ++ u.hash

/-- `pathname.replace(/^\//, "")`. -/
def stripLeadingSlash (p : String) : String :=
  if strStartsWith p "/" then strDrop p 1 else p

/-- Telegram username test: `/^([A-Za-z0-9_]{5,32})$/`. -/
def isTelegramUsername (s : String) : Bool :=
  5 ≤ s.data.length && s.data.length ≤ 32 &&
    s.data.all fun c => c.isAlphanum || c == '_'

/-- First match of `/\/status\/(\d+)/` against a pathname: the digit run
following the first occurrence of `/status/` followed by a digit. -/
def twitterStatusId : List Char → Option String
  | [] => none
  | c :: rest =>
    if ("/status/".data.isPrefixOf (c :: rest)) &&
        (((c :: rest).drop 8).headD ' ').isDigit then
      some (String.mk (((c :: rest).drop 8).takeWhile Char.isDigit))
    else twitterStatusId rest

/-- `pathname.replace(/^\/send\/?/, "")` for WhatsApp. -/
def stripSend (p : String) : String :=
  if strStartsWith p "/send/" then strDrop p 6
  else if strStartsWith p "/send" then strDrop p 5
  else p

/-- `protocol.replace(":", "")` (first occurrence only, as in JS
`String.replace` with a string pattern). -/
def stripFirstColon (p : String) : String :=
  match spanUntil (fun c => c == ':') p.data with
  | (a, _ :: b) => String.mk (a ++ b)
  | (_, []) => p

/-- The compose query pairs built twice in the Gmail case of
`buildDeepLink` (`qp` and `q`, server.js lines 201-206 and 223-228):
only non-empty fields, in the order to/subject/body/cc/bcc. -/
def gmailComposePairs (m : MailFields) : List (String × String) :=
  (if m.«to» == "" then [] else [("to", m.«to»)]) ++
    (if m.subject == "" then [] else [("subject", m.subject)]) ++
    (if m.body == "" then [] else [("body", m.body)]) ++
    (if m.cc == "" then [] else [("cc", m.cc)]) ++
    (if m.bcc == "" then [] else [("bcc", m.bcc)])

/-- The Gmail web-compose URL rebuilt by `buildDeepLink` (server.js lines
212-220): base `https://mail.google.com/mail/` with `view=cm`, `fs=1` and
the non-empty fields appended in order (`subject` is sent as `su`). -/
def gmailWebUrl (m : MailFields) : String :=
  "https://mail.google.com/mail/?" ++
    serializePairs ([("view", "cm"), ("fs", "1")] ++
      (if m.«to» == "" then [] else [("to", m.«to»)]) ++
      (if m.subject == "" then [] else [("su", m.subject)]) ++
      (if m.body == "" then [] else [("body", m.body)]) ++
      (if m.cc == "" then [] else [("cc", m.cc)]) ++
      (if m.bcc == "" then [] else [("bcc", m.bcc)]))

/-- `buildDeepLink` (server.js lines 125-257).  `none` models the
`TypeError` the JS function throws when it dereferences `meta.u` in a
branch where `meta.u` is `undefined` (only possible when `detectApp`
degraded to `{app: null, meta: {}}`). -/
def buildDeepLink (urlStr userAgent : String) : Option Descriptor :=
  let r := detectApp urlStr
  let fallbackHttps := urlStr
  let chromeScheme := buildChromeScheme fallbackHttps
  let encFB := encodeURIComponent fallbackHttps
  if r.app = some "youtube" then
    r.meta.u.map fun u =>
      let vId0 := u.searchParamsGet "v"
      let vId := if !jsT vId0 && u.hostname == "youtu.be"
                 then some (strDrop u.pathname 1) else vId0
      let ios := if jsT vId then "youtube://watch?v=" ++ vId.getD "" else "youtube://"
      let hostPath := if jsT vId
        then "www.youtube.com/watch?v=" ++ encodeURIComponent (vId.getD "")
        else (parseURL "https://www.youtube.com").elim "" asHostPath
      { ios := some ios,
        androidIntent := "intent://" ++ hostPath ++
          "#Intent;scheme=https;package=com.google.android.youtube;" ++
          ("S.browser_fallback_url=" ++ encFB) ++ ";end",
        fallbackHttps, chromeScheme }
  else if r.app = some "whatsapp" then
    r.meta.u.map fun u =>
      let pathDigits := String.mk ((stripSend u.pathname).data.filter fun c => !(c == '/'))
      let phone := jsOr (u.searchParamsGet "phone")
        (if 6 ≤ pathDigits.data.length && pathDigits.data.length ≤ 15 &&
            pathDigits.data.all Char.isDigit
         then pathDigits else "")
      let text := jsOr (u.searchParamsGet "text") ""
      let qPairs := (if phone == "" then [] else [("phone", phone)]) ++
        (if text == "" then [] else [("text", text)])
      let q := serializePairs qPairs
      { ios := some (if q == "" then "whatsapp://send" else "whatsapp://send?" ++ q),
        androidIntent := "intent://send" ++ (if q == "" then "" else "?" ++ q) ++
          "#Intent;scheme=whatsapp;package=com.whatsapp;" ++
          ("S.browser_fallback_url=" ++ encFB) ++ ";end",
        fallbackHttps, chromeScheme }
  else if r.app = some "telegram" then
    r.meta.u.map fun u =>
      let path := stripLeadingSlash u.pathname
      { ios := if isTelegramUsername path then some ("tg://resolve?domain=" ++ path)
               else none,
        androidIntent := "intent://" ++ asHostPath u ++
          "#Intent;scheme=https;package=org.telegram.messenger;" ++
          ("S.browser_fallback_url=" ++ encFB) ++ ";end",
        fallbackHttps, chromeScheme }
  else if r.app = some "instagram" then
    r.meta.u.map fun u =>
      let parts := ((splitChar '/' u.pathname.data).map String.mk).filter fun x => !(x == "")
      let ios := match parts with
        | p0 :: _ =>
          if !(p0 == "p") then "instagram://user?username=" ++ encodeURIComponent p0
          else "instagram://"
        | [] => "instagram://"
      { ios := some ios,
        androidIntent := "intent://" ++ asHostPath u ++
          "#Intent;scheme=https;package=com.instagram.android;" ++
          ("S.browser_fallback_url=" ++ encFB) ++ ";end",
        fallbackHttps, chromeScheme }
  else if r.app = some "amazon" then
    r.meta.u.map fun u =>
      { ios := some "amazon://",
        androidIntent := "intent://" ++ asHostPath u ++
          "#Intent;scheme=https;package=com.amazon.mShop.android.shopping;" ++
          ("S.browser_fallback_url=" ++ encFB) ++ ";end",
        fallbackHttps, chromeScheme }
  else if r.app = some "twitter" then
    r.meta.u.map fun u =>
      let ios := match twitterStatusId u.pathname.data with
        | some id => "twitter://status?id=" ++ id
        | none => "twitter://"
      { ios := some ios,
        androidIntent := "intent://" ++ asHostPath u ++
          "#Intent;scheme=https;package=com.twitter.android;" ++
          ("S.browser_fallback_url=" ++ encFB) ++ ";end",
        fallbackHttps, chromeScheme }
  else if r.app = some "facebook" then
    r.meta.u.map fun u =>
      { ios := some "fb://",
        androidIntent := "intent://" ++ asHostPath u ++
          "#Intent;scheme=https;package=com.facebook.katana;" ++
          ("S.browser_fallback_url=" ++ encFB) ++ ";end",
        fallbackHttps, chromeScheme }
  else if r.app = some "gmail" then
    let m := r.meta.fields.getD ⟨"", "", "", "", ""⟩
    let qpPairs := gmailComposePairs m
    let ios := "googlegmail:///co?" ++ serializePairs qpPairs
    let gmailWebStr := gmailWebUrl m
    let qPairs := gmailComposePairs m
    let androidIntent := "intent://compose?" ++ serializePairs qPairs ++
      "#Intent;scheme=mailto;package=com.google.android.gm;" ++
      ("S.browser_fallback_url=" ++ encodeURIComponent gmailWebStr) ++ ";end"
    let fb := if r.meta.kind == some "web"
      then (match r.meta.u with
        | some u => u.toString
        | none => gmailWebStr)
      else gmailWebStr
    some { ios := some ios, androidIntent, fallbackHttps := fb,
           chromeScheme := buildChromeScheme fb }
  else
    r.meta.u.map fun u =>
      { ios := none,
        androidIntent := "intent://" ++ asHostPath u ++
          "#Intent;scheme=" ++ stripFirstColon u.protocol ++ ";" ++
          ("S.browser_fallback_url=" ++ encFB) ++ ";end",
        fallbackHttps, chromeScheme }

/-! ### The client-side redirect sequencer (inline script of `/r/:id`) -/

/-- ASCII lower-casing of a string (chararacter-list based model of
`String.toLowerCase`). -/
def lowerStr (x : String) : String := String.mk (x.data.map Char.toLower)

/-- `/android/i.test(ua)`. -/
def isAndroidUA (ua : String) : Bool := strContains (lowerStr ua) "android"

/-- `/iPhone|iPad|iPod/i.test(ua)`. -/
def isIOSUA (ua : String) : Bool :=
  strContains (lowerStr ua) "iphone" || strContains (lowerStr ua) "ipad" ||
    strContains (lowerStr ua) "ipod"

/-- The timed navigation attempts issued by the inline script served at
`/r/:id` (server.js lines 466-493), as `(absolute delay in ms, href)`
pairs in order. -/
def redirectSequence (ua : String) (d : Descriptor) : List (Nat × String) :=
  if isAndroidUA ua then
    [(0, d.androidIntent), (1200, d.fallbackHttps)]
  else if isIOSUA ua then
    match d.ios with
    | some i => [(0, i), (700, d.chromeScheme), (700 + 900, d.fallbackHttps)]
    | none => [(0, d.chromeScheme), (0 + 900, d.fallbackHttps)]
  else
    [(0, d.fallbackHttps)]

/-! ### Parser facts used by the universal claims -/

/-- A string parses as an http/https URL. -/
def isHttpUrl (s : String) : Bool :=
  match parseURL s with
  | some u => u.protocol == "http:" || u.protocol == "https:"
  | none => false

theorem isValidUrl_inv {s : String} (h : isValidUrl s = true) :
    ∃ u, parseURL s = some u ∧
      (u.protocol = "http:" ∨ u.protocol = "https:" ∨ u.protocol = "mailto:") := by
  unfold isValidUrl at h
  cases hp : parseURL s with
  | none => rw [hp] at h; exact absurd h (by simp)
  | some u =>
    rw [hp] at h
    refine ⟨u, rfl, ?_⟩
    have h2 : (u.protocol = "http:" ∨ u.protocol = "https:") ∨ u.protocol = "mailto:" := by
      simpa using h
    tauto

theorem isHttpUrl_of_parse {s : String} {u : URL} (h : parseURL s = some u)
    (hp : u.protocol = "http:" ∨ u.protocol = "https:") : isHttpUrl s = true := by
  unfold isHttpUrl
  rw [h]
  rcases hp with h2 | h2 <;> simp [h2]

theorem toNat_ofNat_valid {n : Nat} (h : Nat.isValidChar n) : (Char.ofNat n).toNat = n := by
  simp [Char.ofNat, dif_pos h, Char.ofNatAux, Char.toNat, UInt32.toNat, UInt32.ofNat']

theorem toLower_idem (c : Char) : c.toLower.toLower = c.toLower := by
  unfold Char.toLower
  by_cases h : 65 ≤ c.toNat ∧ c.toNat ≤ 90
  · rw [if_pos h]
    have hv : Nat.isValidChar (c.toNat + 32) := by
      left
      omega
    rw [toNat_ofNat_valid hv, if_neg (by omega)]
  · rw [if_neg h, if_neg h]

theorem takeWhile_of_all {α : Type} {p : α → Bool} {l : List α}
    (h : ∀ c ∈ l, p c = true) : l.takeWhile p = l := by
  induction l with
  | nil => simp
  | cons c t ih =>
    simp [List.takeWhile_cons, h c (by simp), ih fun x hx => h x (by simp [hx])]

theorem afterLastAt_id {l : List Char} (h : ∀ c ∈ l, (c == '@') = false) :
    afterLastAt l = l := by
  unfold afterLastAt
  rw [takeWhile_of_all fun c hc => by simp [h c (List.mem_reverse.mp hc)]]
  exact List.reverse_reverse l

theorem not_slash_of_good {c : Char} (h : badHostChar c = false) :
    isSlashChar c = false := by
  simp [badHostChar] at h
  simp [isSlashChar]
  tauto

theorem not_authDelim_of_good {c : Char} (h : badHostChar c = false) :
    isAuthDelim c = false := by
  simp [badHostChar] at h
  simp [isAuthDelim]
  tauto

theorem not_colon_of_good {c : Char} (h : badHostChar c = false) :
    (c == ':') = false := by
  simp [badHostChar] at h
  simp
  tauto

theorem not_at_of_good {c : Char} (h : badHostChar c = false) :
    (c == '@') = false := by
  simp [badHostChar] at h
  simp
  tauto

theorem ne_of_digit {c : Char} (d : Char) (hd : c.isDigit = true)
    (hnd : d.isDigit = false) : (c == d) = false := by
  by_contra hcd
  simp at hcd
  rw [hcd] at hd
  rw [hd] at hnd
  exact absurd hnd (by simp)

theorem digit_not_authDelim {c : Char} (hd : c.isDigit = true) :
    isAuthDelim c = false := by
  have h1 : ¬c = '/' := by simpa using ne_of_digit '/' hd (by decide)
  have h2 : ¬c = '\\' := by simpa using ne_of_digit '\\' hd (by decide)
  have h3 : ¬c = '?' := by simpa using ne_of_digit '?' hd (by decide)
  have h4 : ¬c = '#' := by simpa using ne_of_digit '#' hd (by decide)
  simp [isAuthDelim]
  tauto

theorem digit_not_at {c : Char} (hd : c.isDigit = true) : (c == '@') = false :=
  ne_of_digit '@' hd (by decide)

/-- Shape facts about a successfully parsed special (http/https) URL that
make its serialization re-parseable. -/
structure SpecialShape (u : URL) : Prop where
  slashes : u.slashes = true
  host_ne : u.hostname.data ≠ []
  host_low : u.hostname.data.map Char.toLower = u.hostname.data
  host_ok : ∀ c ∈ u.hostname.data, badHostChar c = false
  port_digits : ∀ c ∈ u.port.data, c.isDigit = true
  path_shape : ∃ c t, u.pathname.data = c :: t ∧ isSlashChar c = true
  path_ok : ∀ c ∈ u.pathname.data, isPathDelim c = false
  search_shape : u.search = "" ∨ ∃ q, u.search.data = '?' :: q
  hash_shape : u.hash = "" ∨ ∃ r, u.hash.data = '#' :: r

theorem hashPart_shape (l : List Char) :
    hashPart l = "" ∨ ∃ r, (hashPart l).data = '#' :: r := by
  cases l with
  | nil => simp [hashPart]
  | cons c r =>
    by_cases hc : (c == '#') = true
    · by_cases he : r.isEmpty = true
      · simp [hashPart, hc, he]
      · refine Or.inr ⟨r, ?_⟩
        simp [hashPart, hc, he]
    · simp [hashPart, hc]

theorem parseSearchHash_shape (l : List Char) :
    ((parseSearchHash l).1 = "" ∨ ∃ q, (parseSearchHash l).1.data = '?' :: q) ∧
      ((parseSearchHash l).2 = "" ∨ ∃ r, (parseSearchHash l).2.data = '#' :: r) := by
  cases l with
  | nil => simp [parseSearchHash]
  | cons c r =>
    by_cases hc : (c == '?') = true
    · rcases hq : spanUntil (fun c2 => c2 == '#') r with ⟨q, h⟩
      by_cases he : q.isEmpty = true
      · simpa [parseSearchHash, hc, hq, he] using hashPart_shape h
      · refine ⟨Or.inr ⟨q, ?_⟩, ?_⟩
        · simp [parseSearchHash, hc, hq, he]
        · simpa [parseSearchHash, hc, hq, he] using hashPart_shape h
    · exact ⟨by simp [parseSearchHash, hc], by simpa [parseSearchHash, hc] using hashPart_shape (c :: r)⟩

theorem map_toLower_idem (l : List Char) :
    (l.map Char.toLower).map Char.toLower = l.map Char.toLower := by
  induction l with
  | nil => simp
  | cons c t ih => simp [toLower_idem, ih]

theorem str_append_colon_cancel {a b : String} (h : a ++ ":" = b ++ ":") : a = b := by
  apply String.ext
  have h2 := congrArg String.data h
  simp only [String.data_append] at h2
  exact List.append_cancel_right h2

theorem slash_of_auth_not_path {c : Char} (ha : isAuthDelim c = true)
    (hp : isPathDelim c = false) : isSlashChar c = true := by
  simp [isAuthDelim] at ha
  simp [isPathDelim] at hp
  simp [isSlashChar]
  tauto

theorem checkHost_inv {h0 : List Char} {port host port2 : String}
    (h : checkHost h0 port = some (host, port2)) :
    host.data = h0.map Char.toLower ∧ host.data ≠ [] ∧
      (∀ c ∈ host.data, badHostChar c = false) ∧ port2 = port := by
  unfold checkHost at h
  by_cases he : (h0.map Char.toLower).isEmpty = true
  · rw [if_pos he] at h; exact absurd h (by simp)
  · rw [if_neg he] at h
    by_cases hb : (h0.map Char.toLower).any badHostChar = true
    · rw [if_pos hb] at h; exact absurd h (by simp)
    · rw [if_neg hb] at h
      have h3 := Option.some.inj h
      obtain ⟨hh, hpp⟩ := Prod.mk.injEq .. ▸ h3
      refine ⟨by rw [← hh], ?_, ?_, hpp.symm⟩
      · rw [← hh]
        simpa [List.isEmpty_iff] using he
      · intro c hc
        rw [← hh] at hc
        by_contra hbc
        exact hb (List.any_eq_true.mpr ⟨c, hc, by simpa using hbc⟩)

theorem parseHostPort_inv {auth : List Char} {host port : String}
    (h : parseHostPort auth = some (host, port)) :
    host.data ≠ [] ∧ host.data.map Char.toLower = host.data ∧
      (∀ c ∈ host.data, badHostChar c = false) ∧ (∀ c ∈ port.data, c.isDigit = true) := by
  unfold parseHostPort at h
  dsimp only at h
  rcases hs : spanUntil (fun c => c == ':') (afterLastAt auth) with ⟨hh, hrest⟩
  rw [hs] at h
  cases hrest with
  | nil =>
    dsimp at h
    obtain ⟨hdat, hne, hok, hpp⟩ := checkHost_inv h
    refine ⟨hne, ?_, hok, ?_⟩
    · rw [hdat]; exact map_toLower_idem hh
    · rw [hpp]; intro c hc; simp at hc
  | cons x p =>
    dsimp at h
    by_cases hd : p.all Char.isDigit = true
    · rw [if_pos hd] at h
      obtain ⟨hdat, hne, hok, hpp⟩ := checkHost_inv h
      refine ⟨hne, ?_, hok, ?_⟩
      · rw [hdat]; exact map_toLower_idem hh
      · rw [hpp]
        intro c hc
        exact List.all_eq_true.mp hd c (by simpa using hc)
    · rw [if_neg hd] at h
      exact absurd h (by simp)

theorem defaultPort_digits {scheme port : String}
    (h : ∀ c ∈ port.data, c.isDigit = true) :
    ∀ c ∈ (defaultPort scheme port).data, c.isDigit = true := by
  unfold defaultPort
  by_cases hc : ((scheme == "http" && port == "80") ||
      (scheme == "https" && port == "443")) = true
  · rw [if_pos hc]; intro c hcc; simp at hcc
  · rw [if_neg hc]; exact h

theorem protocol_of_parseNonSpecialAuth {scheme : String} {r2 : List Char} {u : URL}
    (h : parseNonSpecialAuth scheme r2 = some u) : u.protocol = scheme ++ ":" := by
  unfold parseNonSpecialAuth at h
  dsimp only at h
  rcases h1 : spanUntil (fun c => c == '/' || c == '?' || c == '#') r2 with ⟨auth, after⟩
  rw [h1] at h
  dsimp at h
  rcases h2 : spanUntil (fun c => c == ':') (afterLastAt auth) with ⟨hh, hrest⟩
  rw [h2] at h
  dsimp at h
  cases hrest with
  | nil =>
    dsimp at h
    by_cases hb : (hh.any fun c => badHostChar c && !(c == '%')) = true
    · rw [if_pos hb] at h; exact absurd h (by simp)
    · rw [if_neg hb] at h
      rcases h3 : spanUntil isPathDelim after with ⟨pth, after2⟩
      rw [h3] at h
      dsimp at h
      have h4 := Option.some.inj h
      rw [← h4]
  | cons x p =>
    dsimp at h
    by_cases hd : p.all Char.isDigit = true
    · rw [if_pos hd] at h
      dsimp at h
      by_cases hb : (hh.any fun c => badHostChar c && !(c == '%')) = true
      · rw [if_pos hb] at h; exact absurd h (by simp)
      · rw [if_neg hb] at h
        rcases h3 : spanUntil isPathDelim after with ⟨pth, after2⟩
        rw [h3] at h
        dsimp at h
        have h4 := Option.some.inj h
        rw [← h4]
    · rw [if_neg hd] at h
      exact absurd h (by simp)

theorem protocol_of_parseOpaquePath (scheme : String) (rest : List Char) :
    (parseOpaquePath scheme rest).protocol = scheme ++ ":" := by
  unfold parseOpaquePath
  rcases h1 : spanUntil isPathDelim rest with ⟨pth, after2⟩
  rfl

theorem protocol_of_parseAfterScheme {scheme : String} {rest : List Char} {u : URL}
    (h : parseAfterScheme scheme rest = some u) : u.protocol = scheme ++ ":" := by
  unfold parseAfterScheme at h
  by_cases hsp : specialSchemes.contains scheme = true
  · rw [if_pos hsp] at h
    dsimp only at h
    rcases h1 : spanUntil isAuthDelim (rest.dropWhile isSlashChar) with ⟨auth, after⟩
    rw [h1] at h
    dsimp at h
    rcases h2 : parseHostPort auth with _ | ⟨host, port⟩
    · rw [h2] at h; exact absurd h (by simp)
    · rw [h2] at h
      dsimp at h
      rcases h3 : spanUntil isPathDelim after with ⟨pth, after2⟩
      rw [h3] at h
      dsimp at h
      have h4 := Option.some.inj h
      rw [← h4]
  · rw [if_neg hsp] at h
    cases rest with
    | nil =>
      dsimp at h
      have h4 := Option.some.inj h
      rw [← h4]
      exact protocol_of_parseOpaquePath ..
    | cons a rest1 =>
      cases rest1 with
      | nil =>
        dsimp at h
        have h4 := Option.some.inj h
        rw [← h4]
        exact protocol_of_parseOpaquePath ..
      | cons b r2 =>
        dsimp at h
        by_cases hab : (a == '/' && b == '/') = true
        · rw [if_pos hab] at h
          exact protocol_of_parseNonSpecialAuth h
        · rw [if_neg hab] at h
          have h4 := Option.some.inj h
          rw [← h4]
          exact protocol_of_parseOpaquePath ..

theorem parseURL_special_inv {s : String} {u : URL} (h : parseURL s = some u)
    (hp : u.protocol = "http:" ∨ u.protocol = "https:") : SpecialShape u := by
  unfold parseURL at h
  rcases hsc : splitScheme s.data with _ | ⟨sc, rest⟩
  · rw [hsc] at h; exact absurd h (by simp)
  rw [hsc] at h
  dsimp at h
  have hproto := protocol_of_parseAfterScheme h
  have hsp : specialSchemes.contains (String.mk (sc.map Char.toLower)) = true := by
    have hsch : String.mk (sc.map Char.toLower) = "http" ∨
        String.mk (sc.map Char.toLower) = "https" := by
      rcases hp with hq | hq <;> rw [hq] at hproto
      · refine Or.inl (str_append_colon_cancel ?_)
        exact hproto.symm
      · refine Or.inr (str_append_colon_cancel ?_)
        exact hproto.symm
    rcases hsch with hq | hq <;> rw [hq] <;> decide
  unfold parseAfterScheme at h
  rw [if_pos hsp] at h
  dsimp only at h
  rcases h1 : spanUntil isAuthDelim (rest.dropWhile isSlashChar) with ⟨auth, after⟩
  rw [h1] at h
  dsimp at h
  rcases h2 : parseHostPort auth with _ | ⟨host, port⟩
  · rw [h2] at h; exact absurd h (by simp)
  rw [h2] at h
  dsimp at h
  rcases h3 : spanUntil isPathDelim after with ⟨pth, after2⟩
  rw [h3] at h
  dsimp at h
  have h4 := Option.some.inj h
  subst h4
  obtain ⟨hhne, hhlow, hhok, hpdig⟩ := parseHostPort_inv h2
  obtain ⟨hafter, hclean, hstop⟩ := spanUntil_sound _ _ _ _ h3
  obtain ⟨_, _, hstop1⟩ := spanUntil_sound _ _ _ _ h1
  have hsearch := (parseSearchHash_shape after2).1
  have hhash := (parseSearchHash_shape after2).2
  refine ⟨rfl, hhne, hhlow, hhok, defaultPort_digits hpdig, ?_, ?_, hsearch, hhash⟩
  · -- path_shape
    by_cases hemp : pth.isEmpty = true
    · refine ⟨'/', [], ?_, by decide⟩
      simp [hemp]
    · have hne : pth ≠ [] := by simpa [List.isEmpty_iff] using hemp
      obtain ⟨c, t, hct⟩ := List.exists_cons_of_ne_nil hne
      have hafter_ne : after = c :: (t ++ after2) := by
        rw [hafter, hct]; simp
      rcases hstop1 with hnil | ⟨d, t1, hdt, hdauth⟩
      · rw [hnil] at hafter_ne; exact absurd hafter_ne (by simp)
      · have hcd : d = c := by
          rw [hafter_ne] at hdt
          exact (List.cons.injEq .. ▸ hdt).1.symm
        have hauth_c : isAuthDelim c = true := hcd ▸ hdauth
        have hpath_c : isPathDelim c = false := hclean c (by simp [hct])
        refine ⟨c, t, ?_, slash_of_auth_not_path hauth_c hpath_c⟩
        simp [hemp, hct]
  · -- path_ok
    intro c hc
    by_cases hemp : pth.isEmpty = true
    · simp [hemp] at hc
      rw [hc]; decide
    · simp [hemp] at hc
      exact hclean c hc

theorem auth_of_slash {c : Char} (h : isSlashChar c = true) : isAuthDelim c = true := by
  simp [isSlashChar] at h
  simp [isAuthDelim]
  tauto

theorem splitScheme_http (tail : List Char) :
    splitScheme ('h' :: 't' :: 't' :: 'p' :: ':' :: tail) =
      some (['h', 't', 't', 'p'], tail) := rfl

theorem splitScheme_https (tail : List Char) :
    splitScheme ('h' :: 't' :: 't' :: 'p' :: 's' :: ':' :: tail) =
      some (['h', 't', 't', 'p', 's'], tail) := rfl

/-- Re-parsing a serialized special URL succeeds and preserves the scheme:
the core of "`fallbackUrl` is always an http(s) URL" for the Gmail-web
branch, which returns `meta.u.toString()`. -/
theorem parseAfterScheme_special (scheme : String)
    (hs : specialSchemes.contains scheme = true)
    (host portStr path sq : String)
    (hhost_ne : host.data ≠ [])
    (hhost_ok : ∀ c ∈ host.data, badHostChar c = false)
    (hhost_low : host.data.map Char.toLower = host.data)
    (hport : portStr = "" ∨ ∃ p, portStr.data = ':' :: p ∧ ∀ c ∈ p, c.isDigit = true)
    (hpath : ∃ c t, path.data = c :: t ∧ isSlashChar c = true) :
    ∃ u2, parseAfterScheme scheme
        ('/' :: '/' :: (host.data ++ (portStr.data ++ (path.data ++ sq.data)))) = some u2 ∧
      u2.protocol = scheme ++ ":" := by
  obtain ⟨hc, ht, hhd⟩ := List.exists_cons_of_ne_nil hhost_ne
  obtain ⟨pc, pt, hpd, hpcs⟩ := hpath
  have hnotslash : isSlashChar hc = false :=
    not_slash_of_good (hhost_ok hc (by simp [hhd]))
  have hslash : isSlashChar '/' = true := by decide
  -- the authority span stops exactly at the path's leading slash
  have hl1 : ∀ c ∈ host.data ++ portStr.data, isAuthDelim c = false := by
    intro c hcmem
    rcases List.mem_append.mp hcmem with hm | hm
    · exact not_authDelim_of_good (hhost_ok c hm)
    · rcases hport with hpe | ⟨p, hpdat, hpdig⟩
      · rw [hpe] at hm; simp at hm
      · rw [hpdat] at hm
        rcases List.mem_cons.mp hm with hm2 | hm2
        · rw [hm2]; decide
        · exact digit_not_authDelim (hpdig c hm2)
  have harg : host.data ++ (portStr.data ++ (path.data ++ sq.data)) =
      (host.data ++ portStr.data) ++ pc :: (pt ++ sq.data) := by
    rw [hpd]; simp
  have hspan :
      spanUntil isAuthDelim (host.data ++ (portStr.data ++ (path.data ++ sq.data))) =
        (host.data ++ portStr.data, pc :: (pt ++ sq.data)) := by
    rw [harg]
    exact spanUntil_append_stop _ _ _ _ hl1 (auth_of_slash hpcs)
  have hnoat : ∀ c ∈ host.data ++ portStr.data, (c == '@') = false := by
    intro c hcmem
    rcases List.mem_append.mp hcmem with hm | hm
    · exact not_at_of_good (hhost_ok c hm)
    · rcases hport with hpe | ⟨p, hpdat, hpdig⟩
      · rw [hpe] at hm; simp at hm
      · rw [hpdat] at hm
        rcases List.mem_cons.mp hm with hm2 | hm2
        · rw [hm2]; decide
        · exact digit_not_at (hpdig c hm2)
  have hcheck : ∀ pv : String, checkHost host.data pv = some (host, pv) := by
    intro pv
    unfold checkHost
    dsimp only
    rw [hhost_low]
    rw [if_neg (by simpa [List.isEmpty_iff] using hhost_ne)]
    rw [if_neg ?hany]
    case hany =>
      intro hany
      rcases List.any_eq_true.mp hany with ⟨c, hcm, hbc⟩
      rw [hhost_ok c hcm] at hbc
      exact absurd hbc (by simp)
  have hhp : ∃ pv, parseHostPort (host.data ++ portStr.data) = some (host, pv) := by
    unfold parseHostPort
    dsimp only
    rw [afterLastAt_id hnoat]
    rcases hport with hpe | ⟨p, hpdat, hpdig⟩
    · have h0 : host.data ++ portStr.data = host.data := by rw [hpe]; simp
      rw [h0, spanUntil_all _ _ fun c hcm => not_colon_of_good (hhost_ok c hcm)]
      exact ⟨"", hcheck ""⟩
    · rw [hpdat, spanUntil_append_stop _ _ _ _
        (fun c hcm => not_colon_of_good (hhost_ok c hcm)) (by decide)]
      dsimp only
      rw [if_pos (List.all_eq_true.mpr hpdig)]
      exact ⟨String.mk p, hcheck (String.mk p)⟩
  obtain ⟨pv, hhpv⟩ := hhp
  unfold parseAfterScheme
  rw [if_pos hs]
  dsimp only
  have hdrop : List.dropWhile isSlashChar
      ('/' :: '/' :: (host.data ++ (portStr.data ++ (path.data ++ sq.data)))) =
      host.data ++ (portStr.data ++ (path.data ++ sq.data)) := by
    rw [hhd]
    simp [List.dropWhile_cons, hslash, hnotslash]
  rw [hdrop, hspan]
  dsimp only
  rw [hhpv]
  dsimp only
  rcases hE : spanUntil isPathDelim (pc :: (pt ++ sq.data)) with ⟨pth, after2⟩
  exact ⟨_, rfl, rfl⟩

/-- Serializing a parsed http/https URL yields a string that is again a
valid http/https URL. -/
theorem isHttpUrl_toString {u : URL} (w : SpecialShape u)
    (hp : u.protocol = "http:" ∨ u.protocol = "https:") :
    isHttpUrl u.toString = true := by
  have hport : (if u.port == "" then "" else ":" ++ u.port) = "" ∨
      ∃ p, (if u.port == "" then "" else ":" ++ u.port).data = ':' :: p ∧
        ∀ c ∈ p, c.isDigit = true := by
    by_cases hpe : (u.port == "") = true
    · rw [if_pos hpe]; exact Or.inl rfl
    · rw [if_neg hpe]
      refine Or.inr ⟨u.port.data, by simp [String.data_append], w.port_digits⟩
  rcases hp with hq | hq
  · have hdat : (URL.toString u).data =
        'h' :: 't' :: 't' :: 'p' :: ':' :: '/' :: '/' ::
          (u.hostname.data ++ ((if u.port == "" then "" else ":" ++ u.port).data ++
            (u.pathname.data ++ (u.search.data ++ u.hash.data)))) := by
      rw [URL.toString, hq, w.slashes]
      simp only [if_true, String.data_append, List.append_assoc]
      rfl
    obtain ⟨u2, hu2, hu2p⟩ := parseAfterScheme_special "http" (by decide)
      u.hostname (if u.port == "" then "" else ":" ++ u.port) u.pathname
      (u.search ++ u.hash) w.host_ne w.host_ok w.host_low hport w.path_shape
    unfold isHttpUrl parseURL
    rw [hdat, splitScheme_http]
    dsimp only
    have hsch : String.mk (List.map Char.toLower ['h', 't', 't', 'p']) = "http" := by decide
    rw [hsch]
    rw [show u.hostname.data ++ ((if u.port == "" then "" else ":" ++ u.port).data ++
        (u.pathname.data ++ (u.search.data ++ u.hash.data))) =
      u.hostname.data ++ ((if u.port == "" then "" else ":" ++ u.port).data ++
        (u.pathname.data ++ (u.search ++ u.hash).data)) from by
      simp [String.data_append]]
    rw [hu2]
    simp [hu2p]
  · have hdat : (URL.toString u).data =
        'h' :: 't' :: 't' :: 'p' :: 's' :: ':' :: '/' :: '/' ::
          (u.hostname.data ++ ((if u.port == "" then "" else ":" ++ u.port).data ++
            (u.pathname.data ++ (u.search.data ++ u.hash.data)))) := by
      rw [URL.toString, hq, w.slashes]
      simp only [if_true, String.data_append, List.append_assoc]
      rfl
    obtain ⟨u2, hu2, hu2p⟩ := parseAfterScheme_special "https" (by decide)
      u.hostname (if u.port == "" then "" else ":" ++ u.port) u.pathname
      (u.search ++ u.hash) w.host_ne w.host_ok w.host_low hport w.path_shape
    unfold isHttpUrl parseURL
    rw [hdat, splitScheme_https]
    dsimp only
    have hsch : String.mk (List.map Char.toLower ['h', 't', 't', 'p', 's']) = "https" := by decide
    rw [hsch]
    rw [show u.hostname.data ++ ((if u.port == "" then "" else ":" ++ u.port).data ++
        (u.pathname.data ++ (u.search.data ++ u.hash.data))) =
      u.hostname.data ++ ((if u.port == "" then "" else ":" ++ u.port).data ++
        (u.pathname.data ++ (u.search ++ u.hash).data)) from by
      simp [String.data_append]]
    rw [hu2]
    simp [hu2p]

set_option maxHeartbeats 1000000 in
/-- Exhaustive description of `detectApp` on a parseable input. -/
theorem detectApp_cases (s : String) (u : URL) (h : parseURL s = some u) :
    (u.protocol = "mailto:" ∧
      ((∃ f, parseMailto s = some f ∧
          detectApp s = ⟨some "gmail", { kind := some "mailto", fields := some f }⟩) ∨
        (parseMailto s = none ∧ detectApp s = ⟨none, {}⟩))) ∨
    (¬u.protocol = "mailto:" ∧
      (detectApp s = ⟨some "gmail",
          { u := some u, kind := some "web", fields := some (parseGmailWeb u) }⟩ ∨
        (∃ a, (a = "youtube" ∨ a = "whatsapp" ∨ a = "telegram" ∨ a = "instagram" ∨
            a = "amazon" ∨ a = "twitter" ∨ a = "facebook") ∧
          detectApp s = ⟨some a, { u := some u }⟩) ∨
        detectApp s = ⟨none, { u := some u }⟩)) := by
  have hd : detectApp s =
      (if u.protocol == "mailto:" then
        match parseMailto s with
        | some fields => ⟨some "gmail", { kind := some "mailto", fields := some fields }⟩
        | none => ⟨none, {}⟩
      else
        let host := stripWww u.hostname
        if gmailWebCond u then
          ⟨some "gmail", { u := some u, kind := some "web", fields := some (parseGmailWeb u) }⟩
        else if strContains host "youtube.com" || host == "youtu.be" then
          ⟨some "youtube", { u := some u }⟩
        else if host == "wa.me" || strContains host "whatsapp.com" then
          ⟨some "whatsapp", { u := some u }⟩
        else if host == "t.me" || strContains host "telegram.me" ||
            strContains host "telegram.org" then
          ⟨some "telegram", { u := some u }⟩
        else if strContains host "instagram.com" then
          ⟨some "instagram", { u := some u }⟩
        else if strStartsWith host "amazon." || strContains host "amazon." then
          ⟨some "amazon", { u := some u }⟩
        else if strContains host "twitter.com" || strContains host "x.com" then
          ⟨some "twitter", { u := some u }⟩
        else if strContains host "facebook.com" then
          ⟨some "facebook", { u := some u }⟩
        else ⟨none, { u := some u }⟩) := by
    unfold detectApp
    rw [h]
  dsimp only at hd
  by_cases hm : (u.protocol == "mailto:") = true
  · rw [if_pos hm] at hd
    refine Or.inl ⟨by simpa using hm, ?_⟩
    rcases hpm : parseMailto s with _ | f
    · rw [hpm] at hd
      exact Or.inr ⟨rfl, hd⟩
    · rw [hpm] at hd
      exact Or.inl ⟨f, rfl, hd⟩
  · rw [if_neg hm] at hd
    refine Or.inr ⟨by simpa using hm, ?_⟩
    by_cases hg : gmailWebCond u = true
    · rw [if_pos hg] at hd
      exact Or.inl hd
    rw [if_neg hg] at hd
    by_cases h1 : (strContains (stripWww u.hostname) "youtube.com" ||
        stripWww u.hostname == "youtu.be") = true
    · rw [if_pos h1] at hd
      exact Or.inr (Or.inl ⟨"youtube", Or.inl rfl, hd⟩)
    rw [if_neg h1] at hd
    by_cases h2 : (stripWww u.hostname == "wa.me" ||
        strContains (stripWww u.hostname) "whatsapp.com") = true
    · rw [if_pos h2] at hd
      exact Or.inr (Or.inl ⟨"whatsapp", Or.inr (Or.inl rfl), hd⟩)
    rw [if_neg h2] at hd
    by_cases h3 : (stripWww u.hostname == "t.me" ||
        strContains (stripWww u.hostname) "telegram.me" ||
        strContains (stripWww u.hostname) "telegram.org") = true
    · rw [if_pos h3] at hd
      exact Or.inr (Or.inl ⟨"telegram", Or.inr (Or.inr (Or.inl rfl)), hd⟩)
    rw [if_neg h3] at hd
    by_cases h4 : strContains (stripWww u.hostname) "instagram.com" = true
    · rw [if_pos h4] at hd
      exact Or.inr (Or.inl ⟨"instagram", Or.inr (Or.inr (Or.inr (Or.inl rfl))), hd⟩)
    rw [if_neg h4] at hd
    by_cases h5 : (strStartsWith (stripWww u.hostname) "amazon." ||
        strContains (stripWww u.hostname) "amazon.") = true
    · rw [if_pos h5] at hd
      exact Or.inr (Or.inl ⟨"amazon", Or.inr (Or.inr (Or.inr (Or.inr (Or.inl rfl)))), hd⟩)
    rw [if_neg h5] at hd
    by_cases h6 : (strContains (stripWww u.hostname) "twitter.com" ||
        strContains (stripWww u.hostname) "x.com") = true
    · rw [if_pos h6] at hd
      exact Or.inr (Or.inl ⟨"twitter", Or.inr (Or.inr (Or.inr (Or.inr (Or.inr (Or.inl rfl))))), hd⟩)
    rw [if_neg h6] at hd
    by_cases h7 : strContains (stripWww u.hostname) "facebook.com" = true
    · rw [if_pos h7] at hd
      exact Or.inr (Or.inl ⟨"facebook", Or.inr (Or.inr (Or.inr (Or.inr (Or.inr (Or.inr rfl))))), hd⟩)
    rw [if_neg h7] at hd
    exact Or.inr (Or.inr hd)

/-! ### Per-application equations for `buildDeepLink` -/

theorem buildDeepLink_crash (s ua : String)
    (hdet : detectApp s = ⟨none, {}⟩) : buildDeepLink s ua = none := by
  unfold buildDeepLink
  rw [hdet]
  rfl

theorem buildDeepLink_youtube (s ua : String) (u : URL)
    (hdet : detectApp s = ⟨some "youtube", { u := some u }⟩) :
    buildDeepLink s ua = some
      (let vId0 := u.searchParamsGet "v"
       let vId := if !jsT vId0 && u.hostname == "youtu.be"
                  then some (strDrop u.pathname 1) else vId0
       let ios := if jsT vId then "youtube://watch?v=" ++ vId.getD "" else "youtube://"
       let hostPath := if jsT vId
         then "www.youtube.com/watch?v=" ++ encodeURIComponent (vId.getD "")
         else (parseURL "https://www.youtube.com").elim "" asHostPath
       { ios := some ios,
         androidIntent := "intent://" ++ hostPath ++
           "#Intent;scheme=https;package=com.google.android.youtube;" ++
           ("S.browser_fallback_url=" ++ encodeURIComponent s) ++ ";end",
         fallbackHttps := s, chromeScheme := buildChromeScheme s }) := by
  unfold buildDeepLink
  rw [hdet]
  rfl

theorem buildDeepLink_whatsapp (s ua : String) (u : URL)
    (hdet : detectApp s = ⟨some "whatsapp", { u := some u }⟩) :
    buildDeepLink s ua = some
      (let pathDigits := String.mk ((stripSend u.pathname).data.filter fun c => !(c == '/'))
       let phone := jsOr (u.searchParamsGet "phone")
         (if 6 ≤ pathDigits.data.length && pathDigits.data.length ≤ 15 &&
             pathDigits.data.all Char.isDigit
          then pathDigits else "")
       let text := jsOr (u.searchParamsGet "text") ""
       let qPairs := (if phone == "" then [] else [("phone", phone)]) ++
         (if text == "" then [] else [("text", text)])
       let q := serializePairs qPairs
       { ios := some (if q == "" then "whatsapp://send" else "whatsapp://send?" ++ q),
         androidIntent := "intent://send" ++ (if q == "" then "" else "?" ++ q) ++
           "#Intent;scheme=whatsapp;package=com.whatsapp;" ++
           ("S.browser_fallback_url=" ++ encodeURIComponent s) ++ ";end",
         fallbackHttps := s, chromeScheme := buildChromeScheme s }) := by
  unfold buildDeepLink
  rw [hdet]
  rfl

theorem buildDeepLink_telegram (s ua : String) (u : URL)
    (hdet : detectApp s = ⟨some "telegram", { u := some u }⟩) :
    buildDeepLink s ua = some
      (let path := stripLeadingSlash u.pathname
       { ios := if isTelegramUsername path then some ("tg://resolve?domain=" ++ path)
                else none,
         androidIntent := "intent://" ++ asHostPath u ++
           "#Intent;scheme=https;package=org.telegram.messenger;" ++
           ("S.browser_fallback_url=" ++ encodeURIComponent s) ++ ";end",
         fallbackHttps := s, chromeScheme := buildChromeScheme s }) := by
  unfold buildDeepLink
  rw [hdet]
  rfl

theorem buildDeepLink_instagram (s ua : String) (u : URL)
    (hdet : detectApp s = ⟨some "instagram", { u := some u }⟩) :
    buildDeepLink s ua = some
      (let parts := ((splitChar '/' u.pathname.data).map String.mk).filter fun x => !(x == "")
       let ios := match parts with
         | p0 :: _ =>
           if !(p0 == "p") then "instagram://user?username=" ++ encodeURIComponent p0
           else "instagram://"
         | [] => "instagram://"
       { ios := some ios,
         androidIntent := "intent://" ++ asHostPath u ++
           "#Intent;scheme=https;package=com.instagram.android;" ++
           ("S.browser_fallback_url=" ++ encodeURIComponent s) ++ ";end",
         fallbackHttps := s, chromeScheme := buildChromeScheme s }) := by
  unfold buildDeepLink
  rw [hdet]
  rfl

theorem buildDeepLink_amazon (s ua : String) (u : URL)
    (hdet : detectApp s = ⟨some "amazon", { u := some u }⟩) :
    buildDeepLink s ua = some
      { ios := some "amazon://",
        androidIntent := "intent://" ++ asHostPath u ++
          "#Intent;scheme=https;package=com.amazon.mShop.android.shopping;" ++
          ("S.browser_fallback_url=" ++ encodeURIComponent s) ++ ";end",
        fallbackHttps := s, chromeScheme := buildChromeScheme s } := by
  unfold buildDeepLink
  rw [hdet]
  rfl

theorem buildDeepLink_twitter (s ua : String) (u : URL)
    (hdet : detectApp s = ⟨some "twitter", { u := some u }⟩) :
    buildDeepLink s ua = some
      (let ios := match twitterStatusId u.pathname.data with
         | some id => "twitter://status?id=" ++ id
         | none => "twitter://"
       { ios := some ios,
         androidIntent := "intent://" ++ asHostPath u ++
           "#Intent;scheme=https;package=com.twitter.android;" ++
           ("S.browser_fallback_url=" ++ encodeURIComponent s) ++ ";end",
         fallbackHttps := s, chromeScheme := buildChromeScheme s }) := by
  unfold buildDeepLink
  rw [hdet]
  rfl

theorem buildDeepLink_facebook (s ua : String) (u : URL)
    (hdet : detectApp s = ⟨some "facebook", { u := some u }⟩) :
    buildDeepLink s ua = some
      { ios := some "fb://",
        androidIntent := "intent://" ++ asHostPath u ++
          "#Intent;scheme=https;package=com.facebook.katana;" ++
          ("S.browser_fallback_url=" ++ encodeURIComponent s) ++ ";end",
        fallbackHttps := s, chromeScheme := buildChromeScheme s } := by
  unfold buildDeepLink
  rw [hdet]
  rfl

theorem buildDeepLink_gmail (s ua : String) (m : Meta)
    (hdet : detectApp s = ⟨some "gmail", m⟩) :
    buildDeepLink s ua = some
      (let mf := m.fields.getD ⟨"", "", "", "", ""⟩
       let fb := if m.kind == some "web"
         then (match m.u with
           | some u => u.toString
           | none => gmailWebUrl mf)
         else gmailWebUrl mf
       { ios := some ("googlegmail:///co?" ++ serializePairs (gmailComposePairs mf)),
         androidIntent := "intent://compose?" ++ serializePairs (gmailComposePairs mf) ++
           "#Intent;scheme=mailto;package=com.google.android.gm;" ++
           ("S.browser_fallback_url=" ++ encodeURIComponent (gmailWebUrl mf)) ++ ";end",
         fallbackHttps := fb, chromeScheme := buildChromeScheme fb }) := by
  unfold buildDeepLink
  rw [hdet]
  rfl

theorem buildDeepLink_generic (s ua : String) (u : URL)
    (hdet : detectApp s = ⟨none, { u := some u }⟩) :
    buildDeepLink s ua = some
      { ios := none,
        androidIntent := "intent://" ++ asHostPath u ++
          "#Intent;scheme=" ++ stripFirstColon u.protocol ++ ";" ++
          ("S.browser_fallback_url=" ++ encodeURIComponent s) ++ ";end",
        fallbackHttps := s, chromeScheme := buildChromeScheme s } := by
  unfold buildDeepLink
  rw [hdet]
  rfl

theorem isHttpUrl_gmailWebUrl (m : MailFields) : isHttpUrl (gmailWebUrl m) = true := rfl

theorem serializePairs_view_fs (tail : List (String × String)) :
    ∃ rest, "https://mail.google.com/mail/?" ++
        serializePairs (("view", "cm") :: ("fs", "1") :: tail) =
      "https://mail.google.com/mail/?view=cm&fs=1" ++ rest := by
  cases tail with
  | nil => exact ⟨"", rfl⟩
  | cons p ps =>
    refine ⟨"&" ++ serializePairs (p :: ps), ?_⟩
    apply String.ext
    simp only [serializePairs, String.data_append, List.append_assoc]
    rfl

theorem gmailWebUrl_prefixed (m : MailFields) :
    ∃ rest, gmailWebUrl m = "https://mail.google.com/mail/?view=cm&fs=1" ++ rest := by
  unfold gmailWebUrl
  simp only [List.append_assoc, List.cons_append, List.nil_append]
  exact serializePairs_view_fs _

/-! ### Claim theorems -/

/-- C9: `buildDeepLink` is deterministic and independent of its
`userAgent` argument: any two user agents give identical descriptors, and
repeated resolution of the same input gives the same result. -/
theorem c9_build_deterministic_ua_independent (s ua1 ua2 : String) :
    buildDeepLink s ua1 = buildDeepLink s ua2 ∧
      buildDeepLink s ua1 = buildDeepLink s ua1 :=
  ⟨rfl, rfl⟩

/-- C8: the redirect sequencer's per-platform order and delays: Android
attempts the intent URL at once and the fallback after 1200 ms; iOS
attempts the iOS scheme at once when present, the Chrome scheme after
700 ms (at once when absent) and the fallback 900 ms later; any other
platform navigates directly to the fallback only. -/
theorem c8_redirect_sequencer (ua : String) (d : Descriptor) :
    (isAndroidUA ua = true →
      redirectSequence ua d = [(0, d.androidIntent), (1200, d.fallbackHttps)]) ∧
    (isAndroidUA ua = false → isIOSUA ua = true →
      (∀ i, d.ios = some i →
        redirectSequence ua d =
          [(0, i), (700, d.chromeScheme), (700 + 900, d.fallbackHttps)]) ∧
      (d.ios = none →
        redirectSequence ua d = [(0, d.chromeScheme), (0 + 900, d.fallbackHttps)])) ∧
    (isAndroidUA ua = false → isIOSUA ua = false →
      redirectSequence ua d = [(0, d.fallbackHttps)]) := by
  unfold redirectSequence
  refine ⟨fun ha => by rw [if_pos ha], fun ha hi => ⟨fun i hios => ?_, fun hios => ?_⟩,
    fun ha hi => by rw [if_neg (by simp [ha]), if_neg (by simp [hi])]⟩
  · rw [if_neg (by simp [ha]), if_pos hi, hios]
  · rw [if_neg (by simp [ha]), if_pos hi, hios]

theorem c8_witness :
    redirectSequence "Mozilla/5.0 (Linux; Android 14) Chrome/120"
        ⟨some "app://x", "intent://x", "https://x", "googlechrome://x"⟩ =
      [(0, "intent://x"), (1200, "https://x")] ∧
    redirectSequence "Mozilla/5.0 (iPhone; CPU iPhone OS 17_0)"
        ⟨some "app://x", "intent://x", "https://x", "googlechrome://x"⟩ =
      [(0, "app://x"), (700, "googlechrome://x"), (700 + 900, "https://x")] ∧
    redirectSequence "Mozilla/5.0 (iPad)"
        ⟨none, "intent://x", "https://x", "googlechrome://x"⟩ =
      [(0, "googlechrome://x"), (0 + 900, "https://x")] ∧
    redirectSequence "curl/8.5.0"
        ⟨some "app://x", "intent://x", "https://x", "googlechrome://x"⟩ =
      [(0, "https://x")] :=
  ⟨(c8_redirect_sequencer _ _).1 (by decide),
    ((c8_redirect_sequencer _ _).2.1 (by decide) (by decide)).1 "app://x" rfl,
    ((c8_redirect_sequencer _ _).2.1 (by decide) (by decide)).2 rfl,
    (c8_redirect_sequencer _ _).2.2 (by decide) (by decide)⟩

/-- C5: a `youtu.be` short link is normalized into `v=<id>` form: the
video id from the path appears in the iOS scheme and in the
`www.youtube.com/watch?v=<id>` intent host-path, and the fallback is the
original input unchanged. -/
theorem c5_youtu_be_normalized :
    isValidUrl "https://youtu.be/dQw4w9WgXcQ" = true ∧
    buildDeepLink "https://youtu.be/dQw4w9WgXcQ" "" = some
      { ios := some "youtube://watch?v=dQw4w9WgXcQ",
        androidIntent := "intent://www.youtube.com/watch?v=dQw4w9WgXcQ#Intent;scheme=https;package=com.google.android.youtube;S.browser_fallback_url=https%3A%2F%2Fyoutu.be%2FdQw4w9WgXcQ;end",
        fallbackHttps := "https://youtu.be/dQw4w9WgXcQ",
        chromeScheme := "googlechrome://youtu.be/dQw4w9WgXcQ" } :=
  ⟨rfl, rfl⟩

/-- C3: classification is total — `detectApp` returns Generic with empty
fields whenever `new URL` fails — but the resolver is *not* total: the
validated input `mailto:%` makes `parseMailto`'s `decodeURIComponent`
throw, `detectApp` degrades to `{app: null, meta: {}}`, and
`buildDeepLink` then crashes dereferencing the missing `meta.u`
(modelled as `none`). -/
theorem c3_classification_total_resolver_crash :
    (∀ s, parseURL s = none → detectApp s = ⟨none, {}⟩) ∧
    isValidUrl "mailto:%" = true ∧
    detectApp "mailto:%" = ⟨none, {}⟩ ∧
    buildDeepLink "mailto:%" "" = none := by
  refine ⟨fun s hs => ?_, rfl, rfl, rfl⟩
  unfold detectApp
  rw [hs]

theorem c3_witness :
    detectApp "no scheme at all" = ⟨none, {}⟩ :=
  c3_classification_total_resolver_crash.1 "no scheme at all" rfl

set_option maxRecDepth 8192 in
/-- C4: the concrete mailto example resolves exactly as specified
(Gmail classification, `googlegmail:///co?...` iOS URL, Gmail-web
fallback), but the universal half of the claim fails: the validated
mailto URL `mailto:%zz` is not classified Gmail — `parseMailto` throws
in `decodeURIComponent` and `detectApp`'s catch returns a null app, after
which `buildDeepLink` crashes. -/
theorem c4_mailto_classification :
    buildDeepLink "mailto:a@b.com?subject=Hi&body=Hello" "" = some
      { ios := some "googlegmail:///co?to=a%40b.com&subject=Hi&body=Hello",
        androidIntent := "intent://compose?to=a%40b.com&subject=Hi&body=Hello#Intent;scheme=mailto;package=com.google.android.gm;S.browser_fallback_url=https%3A%2F%2Fmail.google.com%2Fmail%2F%3Fview%3Dcm%26fs%3D1%26to%3Da%2540b.com%26su%3DHi%26body%3DHello;end",
        fallbackHttps := "https://mail.google.com/mail/?view=cm&fs=1&to=a%40b.com&su=Hi&body=Hello",
        chromeScheme := "googlechrome://mail.google.com/mail/?view=cm&fs=1&to=a%40b.com&su=Hi&body=Hello" } ∧
    parseMailto "mailto:a@b.com?subject=Hi&body=Hello" =
      some { «to» := "a@b.com", subject := "Hi", body := "Hello", cc := "", bcc := "" } ∧
    isValidUrl "mailto:%zz" = true ∧
    detectApp "mailto:%zz" = ⟨none, {}⟩ ∧
    buildDeepLink "mailto:%zz" "" = none :=
  ⟨rfl, rfl, rfl, rfl, rfl⟩

/-- C1 counterexample: for the validated Gmail web-compose input
`https://mail.google.com/mail/?compose=1`, the returned descriptor's
`androidIntentUrl` embeds the percent-encoding of the *rebuilt* Gmail
compose URL, not of the descriptor's own `fallbackUrl` (which is the
original input), so the claimed substring is absent. -/
theorem c1_counterexample :
    isValidUrl "https://mail.google.com/mail/?compose=1" = true ∧
    buildDeepLink "https://mail.google.com/mail/?compose=1" "" = some
      { ios := some "googlegmail:///co?",
        androidIntent := "intent://compose?#Intent;scheme=mailto;package=com.google.android.gm;S.browser_fallback_url=https%3A%2F%2Fmail.google.com%2Fmail%2F%3Fview%3Dcm%26fs%3D1;end",
        fallbackHttps := "https://mail.google.com/mail/?compose=1",
        chromeScheme := "googlechrome://mail.google.com/mail/?compose=1" } ∧
    strContains
      "intent://compose?#Intent;scheme=mailto;package=com.google.android.gm;S.browser_fallback_url=https%3A%2F%2Fmail.google.com%2Fmail%2F%3Fview%3Dcm%26fs%3D1;end"
      ("S.browser_fallback_url=" ++
        encodeURIComponent "https://mail.google.com/mail/?compose=1") = false :=
  ⟨rfl, rfl, by decide⟩

/-- C7: in every returned descriptor, for every application tag including
Gmail, `chromeUrl` is the fixed transform of that descriptor's own
`fallbackUrl` (strip a leading `http://`/`https://`, prepend
`googlechrome://`). -/
theorem c7_chrome_is_transform_of_fallback (s ua : String) (d : Descriptor)
    (hv : isValidUrl s = true) (hb : buildDeepLink s ua = some d) :
    d.chromeScheme = buildChromeScheme d.fallbackHttps := by
  obtain ⟨u, hp, _⟩ := isValidUrl_inv hv
  rcases detectApp_cases s u hp with ⟨_, hcase⟩ | ⟨_, hcase⟩
  · rcases hcase with ⟨f, _, hdet⟩ | ⟨_, hdet⟩
    · rw [buildDeepLink_gmail s ua _ hdet] at hb
      injection hb with hd
      subst hd
      rfl
    · rw [buildDeepLink_crash s ua hdet] at hb
      exact absurd hb (by simp)
  · rcases hcase with hdet | ⟨a, ha, hdet⟩ | hdet
    · rw [buildDeepLink_gmail s ua _ hdet] at hb
      injection hb with hd
      subst hd
      rfl
    · rcases ha with h | h | h | h | h | h | h <;> subst h
      · rw [buildDeepLink_youtube s ua u hdet] at hb
        injection hb with hd; subst hd; rfl
      · rw [buildDeepLink_whatsapp s ua u hdet] at hb
        injection hb with hd; subst hd; rfl
      · rw [buildDeepLink_telegram s ua u hdet] at hb
        injection hb with hd; subst hd; rfl
      · rw [buildDeepLink_instagram s ua u hdet] at hb
        injection hb with hd; subst hd; rfl
      · rw [buildDeepLink_amazon s ua u hdet] at hb
        injection hb with hd; subst hd; rfl
      · rw [buildDeepLink_twitter s ua u hdet] at hb
        injection hb with hd; subst hd; rfl
      · rw [buildDeepLink_facebook s ua u hdet] at hb
        injection hb with hd; subst hd; rfl
    · rw [buildDeepLink_generic s ua u hdet] at hb
      injection hb with hd; subst hd; rfl

set_option maxRecDepth 8192 in
theorem c7_witness :
    Descriptor.chromeScheme
        { ios := none,
          androidIntent := "intent://example.org/anything#Intent;scheme=https;S.browser_fallback_url=https%3A%2F%2Fexample.org%2Fanything;end",
          fallbackHttps := "https://example.org/anything",
          chromeScheme := "googlechrome://example.org/anything" } =
      buildChromeScheme "https://example.org/anything" :=
  c7_chrome_is_transform_of_fallback "https://example.org/anything" "" _ (by rfl) (by rfl)

/-- C1 (amended): every returned `androidIntentUrl` ends in `;end` and
embeds `S.browser_fallback_url=` followed by a percent-encoded URL; for
every case except the Gmail web-compose one, that encoded URL is exactly
the descriptor's `fallbackUrl` (in the Gmail web-compose case it is the
rebuilt Gmail compose URL while `fallbackUrl` is the original input). -/
theorem c1_amended_fallback_embedding (s ua : String) (d : Descriptor)
    (hv : isValidUrl s = true) (hb : buildDeepLink s ua = some d) :
    strEndsWith d.androidIntent ";end" = true ∧
    ∃ fbEmb, strContains d.androidIntent
        ("S.browser_fallback_url=" ++ encodeURIComponent fbEmb) = true ∧
      ((detectApp s).meta.kind ≠ some "web" → fbEmb = d.fallbackHttps) := by
  obtain ⟨u, hp, _⟩ := isValidUrl_inv hv
  rcases detectApp_cases s u hp with ⟨_, hcase⟩ | ⟨_, hcase⟩
  · rcases hcase with ⟨f, _, hdet⟩ | ⟨_, hdet⟩
    · rw [buildDeepLink_gmail s ua _ hdet] at hb
      injection hb with hd
      subst hd
      exact ⟨strEndsWith_last _ _, gmailWebUrl f, strContains_mid _ _ _, fun _ => rfl⟩
    · rw [buildDeepLink_crash s ua hdet] at hb
      exact absurd hb (by simp)
  · rcases hcase with hdet | ⟨a, ha, hdet⟩ | hdet
    · rw [buildDeepLink_gmail s ua _ hdet] at hb
      injection hb with hd
      subst hd
      refine ⟨strEndsWith_last _ _, gmailWebUrl (parseGmailWeb u), strContains_mid _ _ _,
        fun hk => absurd ?_ hk⟩
      rw [hdet]
    · rcases ha with h | h | h | h | h | h | h <;> subst h
      · rw [buildDeepLink_youtube s ua u hdet] at hb
        injection hb with hd; subst hd
        exact ⟨strEndsWith_last _ _, s, strContains_mid _ _ _, fun _ => rfl⟩
      · rw [buildDeepLink_whatsapp s ua u hdet] at hb
        injection hb with hd; subst hd
        exact ⟨strEndsWith_last _ _, s, strContains_mid _ _ _, fun _ => rfl⟩
      · rw [buildDeepLink_telegram s ua u hdet] at hb
        injection hb with hd; subst hd
        exact ⟨strEndsWith_last _ _, s, strContains_mid _ _ _, fun _ => rfl⟩
      · rw [buildDeepLink_instagram s ua u hdet] at hb
        injection hb with hd; subst hd
        exact ⟨strEndsWith_last _ _, s, strContains_mid _ _ _, fun _ => rfl⟩
      · rw [buildDeepLink_amazon s ua u hdet] at hb
        injection hb with hd; subst hd
        exact ⟨strEndsWith_last _ _, s, strContains_mid _ _ _, fun _ => rfl⟩
      · rw [buildDeepLink_twitter s ua u hdet] at hb
        injection hb with hd; subst hd
        exact ⟨strEndsWith_last _ _, s, strContains_mid _ _ _, fun _ => rfl⟩
      · rw [buildDeepLink_facebook s ua u hdet] at hb
        injection hb with hd; subst hd
        exact ⟨strEndsWith_last _ _, s, strContains_mid _ _ _, fun _ => rfl⟩
    · rw [buildDeepLink_generic s ua u hdet] at hb
      injection hb with hd; subst hd
      exact ⟨strEndsWith_last _ _, s, strContains_mid _ _ _, fun _ => rfl⟩

set_option maxRecDepth 8192 in
theorem c1_witness :
    strEndsWith
        (Descriptor.androidIntent
          { ios := none,
            androidIntent := "intent://example.org/anything#Intent;scheme=https;S.browser_fallback_url=https%3A%2F%2Fexample.org%2Fanything;end",
            fallbackHttps := "https://example.org/anything",
            chromeScheme := "googlechrome://example.org/anything" }) ";end" = true ∧
    ∃ fbEmb, strContains
        (Descriptor.androidIntent
          { ios := none,
            androidIntent := "intent://example.org/anything#Intent;scheme=https;S.browser_fallback_url=https%3A%2F%2Fexample.org%2Fanything;end",
            fallbackHttps := "https://example.org/anything",
            chromeScheme := "googlechrome://example.org/anything" })
        ("S.browser_fallback_url=" ++ encodeURIComponent fbEmb) = true ∧
      ((detectApp "https://example.org/anything").meta.kind ≠ some "web" →
        fbEmb = "https://example.org/anything") :=
  c1_amended_fallback_embedding "https://example.org/anything" "" _ (by rfl) (by rfl)

/-- C2: every returned descriptor's `fallbackUrl` is an http/https URL —
never a custom scheme — and for a mailto input it is the Gmail
web-compose URL (prefixed `https://mail.google.com/mail/?view=cm&fs=1`),
not the raw mailto string. -/
theorem c2_fallback_is_http_url (s ua : String) (d : Descriptor)
    (hv : isValidUrl s = true) (hb : buildDeepLink s ua = some d) :
    isHttpUrl d.fallbackHttps = true ∧
    (∀ u, parseURL s = some u → u.protocol = "mailto:" →
      ∃ rest, d.fallbackHttps = "https://mail.google.com/mail/?view=cm&fs=1" ++ rest) := by
  obtain ⟨u, hp, hproto⟩ := isValidUrl_inv hv
  rcases detectApp_cases s u hp with ⟨hm, hcase⟩ | ⟨hnm, hcase⟩
  · rcases hcase with ⟨f, _, hdet⟩ | ⟨_, hdet⟩
    · rw [buildDeepLink_gmail s ua _ hdet] at hb
      injection hb with hd
      subst hd
      constructor
      · exact isHttpUrl_gmailWebUrl f
      · intro u2 _ _
        exact gmailWebUrl_prefixed f
    · rw [buildDeepLink_crash s ua hdet] at hb
      exact absurd hb (by simp)
  · have hproto2 : u.protocol = "http:" ∨ u.protocol = "https:" := by
      rcases hproto with h | h | h
      · exact Or.inl h
      · exact Or.inr h
      · exact absurd h hnm
    have hnomailto : ∀ u2 : URL, parseURL s = some u2 → u2.protocol = "mailto:" →
        ∃ rest, d.fallbackHttps = "https://mail.google.com/mail/?view=cm&fs=1" ++ rest := by
      intro u2 hpu2 hm2
      rw [hp] at hpu2
      injection hpu2 with hu2
      rw [← hu2] at hm2
      exact absurd hm2 hnm
    rcases hcase with hdet | ⟨a, ha, hdet⟩ | hdet
    · rw [buildDeepLink_gmail s ua _ hdet] at hb
      injection hb with hd
      subst hd
      refine ⟨?_, hnomailto⟩
      show isHttpUrl u.toString = true
      exact isHttpUrl_toString (parseURL_special_inv hp hproto2) hproto2
    · rcases ha with h | h | h | h | h | h | h <;> subst h
      · rw [buildDeepLink_youtube s ua u hdet] at hb
        injection hb with hd; subst hd
        exact ⟨isHttpUrl_of_parse hp hproto2, hnomailto⟩
      · rw [buildDeepLink_whatsapp s ua u hdet] at hb
        injection hb with hd; subst hd
        exact ⟨isHttpUrl_of_parse hp hproto2, hnomailto⟩
      · rw [buildDeepLink_telegram s ua u hdet] at hb
        injection hb with hd; subst hd
        exact ⟨isHttpUrl_of_parse hp hproto2, hnomailto⟩
      · rw [buildDeepLink_instagram s ua u hdet] at hb
        injection hb with hd; subst hd
        exact ⟨isHttpUrl_of_parse hp hproto2, hnomailto⟩
      · rw [buildDeepLink_amazon s ua u hdet] at hb
        injection hb with hd; subst hd
        exact ⟨isHttpUrl_of_parse hp hproto2, hnomailto⟩
      · rw [buildDeepLink_twitter s ua u hdet] at hb
        injection hb with hd; subst hd
        exact ⟨isHttpUrl_of_parse hp hproto2, hnomailto⟩
      · rw [buildDeepLink_facebook s ua u hdet] at hb
        injection hb with hd; subst hd
        exact ⟨isHttpUrl_of_parse hp hproto2, hnomailto⟩
    · rw [buildDeepLink_generic s ua u hdet] at hb
      injection hb with hd; subst hd
      exact ⟨isHttpUrl_of_parse hp hproto2, hnomailto⟩

set_option maxRecDepth 8192 in
theorem c2_witness :
    isHttpUrl "https://mail.google.com/mail/?view=cm&fs=1&to=a%40b.com&su=Hi&body=Hello" =
      true ∧
    (∃ rest, Descriptor.fallbackHttps
        { ios := some "googlegmail:///co?to=a%40b.com&subject=Hi&body=Hello",
          androidIntent := "intent://compose?to=a%40b.com&subject=Hi&body=Hello#Intent;scheme=mailto;package=com.google.android.gm;S.browser_fallback_url=https%3A%2F%2Fmail.google.com%2Fmail%2F%3Fview%3Dcm%26fs%3D1%26to%3Da%2540b.com%26su%3DHi%26body%3DHello;end",
          fallbackHttps := "https://mail.google.com/mail/?view=cm&fs=1&to=a%40b.com&su=Hi&body=Hello",
          chromeScheme := "googlechrome://mail.google.com/mail/?view=cm&fs=1&to=a%40b.com&su=Hi&body=Hello" } =
      "https://mail.google.com/mail/?view=cm&fs=1" ++ rest) :=
  ⟨(c2_fallback_is_http_url "mailto:a@b.com?subject=Hi&body=Hello" "" _ (by rfl)
      (by rfl)).1,
    (c2_fallback_is_http_url "mailto:a@b.com?subject=Hi&body=Hello" "" _ (by rfl)
      (by rfl)).2
      { protocol := "mailto:", slashes := false, hostname := "", port := "",
        pathname := "a@b.com", search := "?subject=Hi&body=Hello", hash := "" }
      (by rfl) rfl⟩

/-- C6: for every Telegram-classified URL, the iOS scheme is
`tg://resolve?domain=<segment>` exactly when the slash-stripped path is a
single username-shaped segment (5-32 word characters) and absent
otherwise, while the android intent and fallback are always populated. -/
theorem c6_telegram_ios_iff_username (s ua : String) (u : URL) (d : Descriptor)
    (hu : parseURL s = some u)
    (happ : (detectApp s).app = some "telegram")
    (hb : buildDeepLink s ua = some d) :
    (d.ios = if isTelegramUsername (stripLeadingSlash u.pathname)
             then some ("tg://resolve?domain=" ++ stripLeadingSlash u.pathname)
             else none) ∧
    d.androidIntent = "intent://" ++ asHostPath u ++
        "#Intent;scheme=https;package=org.telegram.messenger;" ++
        ("S.browser_fallback_url=" ++ encodeURIComponent s) ++ ";end" ∧
    d.fallbackHttps = s := by
  rcases detectApp_cases s u hu with ⟨_, hcase⟩ | ⟨_, hcase⟩
  · rcases hcase with ⟨f, _, hdet⟩ | ⟨_, hdet⟩
    · rw [hdet] at happ
      simp at happ
    · rw [hdet] at happ
      simp at happ
  · rcases hcase with hdet | ⟨a, _, hdet⟩ | hdet
    · rw [hdet] at happ
      simp at happ
    · rw [hdet] at happ
      simp at happ
      subst happ
      rw [buildDeepLink_telegram s ua u hdet] at hb
      injection hb with hd
      subst hd
      exact ⟨rfl, rfl, rfl⟩
    · rw [hdet] at happ
      simp at happ

set_option maxRecDepth 8192 in
theorem c6_witness :
    (Descriptor.ios
        { ios := none,
          androidIntent := "intent://t.me/joinchat/AbCdEf123#Intent;scheme=https;package=org.telegram.messenger;S.browser_fallback_url=https%3A%2F%2Ft.me%2Fjoinchat%2FAbCdEf123;end",
          fallbackHttps := "https://t.me/joinchat/AbCdEf123",
          chromeScheme := "googlechrome://t.me/joinchat/AbCdEf123" } =
      if isTelegramUsername (stripLeadingSlash "/joinchat/AbCdEf123")
      then some ("tg://resolve?domain=" ++ stripLeadingSlash "/joinchat/AbCdEf123")
      else none) ∧
    Descriptor.androidIntent
        { ios := none,
          androidIntent := "intent://t.me/joinchat/AbCdEf123#Intent;scheme=https;package=org.telegram.messenger;S.browser_fallback_url=https%3A%2F%2Ft.me%2Fjoinchat%2FAbCdEf123;end",
          fallbackHttps := "https://t.me/joinchat/AbCdEf123",
          chromeScheme := "googlechrome://t.me/joinchat/AbCdEf123" } =
      "intent://" ++
          asHostPath
            { protocol := "https:", slashes := true, hostname := "t.me", port := "",
              pathname := "/joinchat/AbCdEf123", search := "", hash := "" } ++
        "#Intent;scheme=https;package=org.telegram.messenger;" ++
        ("S.browser_fallback_url=" ++
          encodeURIComponent "https://t.me/joinchat/AbCdEf123") ++ ";end" ∧
    Descriptor.fallbackHttps
        { ios := none,
          androidIntent := "intent://t.me/joinchat/AbCdEf123#Intent;scheme=https;package=org.telegram.messenger;S.browser_fallback_url=https%3A%2F%2Ft.me%2Fjoinchat%2FAbCdEf123;end",
          fallbackHttps := "https://t.me/joinchat/AbCdEf123",
          chromeScheme := "googlechrome://t.me/joinchat/AbCdEf123" } =
      "https://t.me/joinchat/AbCdEf123" :=
  c6_telegram_ios_iff_username "https://t.me/joinchat/AbCdEf123" ""
    { protocol := "https:", slashes := true, hostname := "t.me", port := "",
      pathname := "/joinchat/AbCdEf123", search := "", hash := "" }
    _ (by rfl) (by rfl) (by rfl)

/-- C10: for a YouTube-classified URL with no derivable video id (no `v`
query parameter and host not `youtu.be`), the iOS scheme is the bare
`youtube://` and the intent host-path is exactly `www.youtube.com/`: the
original path, query and fragment survive only inside the
percent-encoded browser-fallback parameter. -/
theorem c10_youtube_no_id_discards_path (s ua : String) (u : URL) (d : Descriptor)
    (hu : parseURL s = some u)
    (happ : (detectApp s).app = some "youtube")
    (hnov : u.searchParamsGet "v" = none)
    (hnyb : u.hostname ≠ "youtu.be")
    (hb : buildDeepLink s ua = some d) :
    d.ios = some "youtube://" ∧
    d.androidIntent = "intent://www.youtube.com/" ++
        "#Intent;scheme=https;package=com.google.android.youtube;" ++
        ("S.browser_fallback_url=" ++ encodeURIComponent s) ++ ";end" := by
  have hbe : (u.hostname == "youtu.be") = false := by
    rw [beq_eq_false_iff_ne]
    exact hnyb
  rcases detectApp_cases s u hu with ⟨_, hcase⟩ | ⟨_, hcase⟩
  · rcases hcase with ⟨f, _, hdet⟩ | ⟨_, hdet⟩
    · rw [hdet] at happ
      simp at happ
    · rw [hdet] at happ
      simp at happ
  · rcases hcase with hdet | ⟨a, _, hdet⟩ | hdet
    · rw [hdet] at happ
      simp at happ
    · rw [hdet] at happ
      simp at happ
      subst happ
      rw [buildDeepLink_youtube s ua u hdet] at hb
      injection hb with hd
      subst hd
      constructor
      · rw [Descriptor.ios, hnov, hbe]
        rfl
      · rw [Descriptor.androidIntent, hnov, hbe]
        rfl
    · rw [hdet] at happ
      simp at happ

set_option maxRecDepth 8192 in
theorem c10_witness :
    Descriptor.ios
        { ios := some "youtube://",
          androidIntent := "intent://www.youtube.com/#Intent;scheme=https;package=com.google.android.youtube;S.browser_fallback_url=https%3A%2F%2Fwww.youtube.com%2Ffeed;end",
          fallbackHttps := "https://www.youtube.com/feed",
          chromeScheme := "googlechrome://www.youtube.com/feed" } = some "youtube://" ∧
    Descriptor.androidIntent
        { ios := some "youtube://",
          androidIntent := "intent://www.youtube.com/#Intent;scheme=https;package=com.google.android.youtube;S.browser_fallback_url=https%3A%2F%2Fwww.youtube.com%2Ffeed;end",
          fallbackHttps := "https://www.youtube.com/feed",
          chromeScheme := "googlechrome://www.youtube.com/feed" } =
      "intent://www.youtube.com/" ++
        "#Intent;scheme=https;package=com.google.android.youtube;" ++
        ("S.browser_fallback_url=" ++
          encodeURIComponent "https://www.youtube.com/feed") ++ ";end" :=
  c10_youtube_no_id_discards_path "https://www.youtube.com/feed" ""
    { protocol := "https:", slashes := true, hostname := "www.youtube.com", port := "",
      pathname := "/feed", search := "", hash := "" }
    _ (by rfl) (by rfl) (by rfl) (by decide) (by rfl)

end TrueLink
